import Mathlib

/-!
Shallow embedding of the textelo matchmaking / match-lifecycle engine.

Sources embedded:
* `src/shared/schema.ts` — data model (tables `users`, `matches`, `messages`,
  `queue`, `judge_ratings`); presentation-only columns (names, avatars,
  audit timestamps) are omitted, all engine-relevant columns are kept.
* `src/server/storage.ts` — `DatabaseStorage`: each SQL statement is modelled
  as a pure function on an explicit database state `DB`.  `update … where id =`
  becomes a conditional `List.map`; `order by joined_at asc limit 1` becomes
  `oldestFirst`; Drizzle's behaviour of skipping `undefined` fields in `.set`
  is modelled by keeping the old value when the optional argument is `none`.
  Lists are kept in insertion order, which realises the `asc` orderings used
  by the engine (`sentAt` / `ratedAt` equal the monotone insertion times).
* `src/server/services/gameEngine.ts` — `GameEngine`.
* `src/server/services/matchmaking.ts` — `MatchmakingService.findMatch`.
* `src/unnamed/part_004` — the `POST /api/matches/:matchId/end` route handler.

Timestamps are integer milliseconds (`Date.now()`); `now` is passed
explicitly.  Generated uuids are passed explicitly as `newId` arguments.
JavaScript numbers in the ELO formula are modelled as exact reals; DB integer
columns are `Int`.
-/

namespace Textelo

/-- `match_status` enum of `schema.ts`. -/
inductive MatchStatus
  | waiting
  | active
  | completed
  | forfeit
deriving DecidableEq, Repr

/-- `move_rating` enum of `schema.ts`: the seven rating tiers. -/
inductive MoveRating
  | brilliant
  | great
  | excellent
  | good
  | miss
  | mistake
  | blunder
deriving DecidableEq, Repr

/-- `match_type` enum of `schema.ts`. -/
inductive MatchType
  | player
  | judge
deriving DecidableEq, Repr

/-- Row of the `users` table (engine-relevant columns, with schema defaults). -/
structure User where
  id : String
  elo : Int := 1200
  peakElo : Int := 1200
  judgeElo : Int := 1200
  peakJudgeElo : Int := 1200
  totalMatches : Int := 0
  totalJudgeMatches : Int := 0
  wins : Int := 0
  losses : Int := 0
  judgeAgreements : Int := 0
  judgeDisagreements : Int := 0
deriving DecidableEq, Repr

/-- Row of the `matches` table (with schema defaults). -/
structure Match where
  id : String
  player1Id : String
  player2Id : Option String := none
  judge1Id : Option String := none
  judge2Id : Option String := none
  status : MatchStatus := .waiting
  currentTurn : Option String := none
  winnerId : Option String := none
  player1Score : Int := 0
  player2Score : Int := 0
  startedAt : Option Int := none
  endedAt : Option Int := none
  timeLimit : Int := 300
deriving DecidableEq, Repr

/-- Row of the `messages` table. -/
structure Message where
  id : String
  matchId : String
  userId : String
  content : String
  sentAt : Int
deriving DecidableEq, Repr

/-- Row of the `judge_ratings` table. -/
structure JudgeRating where
  id : String
  messageId : String
  judgeId : String
  rating : MoveRating
  explanation : String
  ratedAt : Int
deriving DecidableEq, Repr

/-- Row of the `queue` table (`userId` is unique by schema). -/
structure QueueEntry where
  userId : String
  elo : Int
  matchType : MatchType
  joinedAt : Int
deriving DecidableEq, Repr

/-- The relational store: one list per table, in insertion order. -/
structure DB where
  users : List User
  matchRows : List Match
  messages : List Message
  queue : List QueueEntry
  judgeRatings : List JudgeRating
deriving DecidableEq, Repr

namespace Storage

/-- `getUser`: `select from users where id = …` (first matching row). -/
def getUser (db : DB) (id : String) : Option User :=
  db.users.find? (fun u => u.id == id)

/-- `update users set … where id = userId`: apply `g` to every matching row. -/
def modifyUser (db : DB) (userId : String) (g : User → User) : DB :=
  { db with users := db.users.map fun u => if u.id == userId then g u else u }

/-- `updateUserElo`: sets `elo`, raises `peak_elo` to `GREATEST(peak_elo, newElo)`. -/
def updateUserElo (db : DB) (userId : String) (newElo : Int) : DB :=
  modifyUser db userId fun u =>
    { u with elo := newElo, peakElo := max u.peakElo newElo }

/-- `updateUserStats`: `total_matches + 1`, and `wins + 1` when `won`
else `losses + 1`. -/
def updateUserStats (db : DB) (userId : String) (won : Bool) : DB :=
  modifyUser db userId fun u =>
    { u with
      totalMatches := u.totalMatches + 1
      wins := if won then u.wins + 1 else u.wins
      losses := if won then u.losses else u.losses + 1 }

/-- `updateJudgeElo`: sets `judge_elo`, raises `peak_judge_elo` to the max. -/
def updateJudgeElo (db : DB) (userId : String) (newJudgeElo : Int) : DB :=
  modifyUser db userId fun u =>
    { u with judgeElo := newJudgeElo, peakJudgeElo := max u.peakJudgeElo newJudgeElo }

/-- `updateJudgeStats`: `total_judge_matches + 1`, and agreement or
disagreement counter per `agreed`. -/
def updateJudgeStats (db : DB) (userId : String) (agreed : Bool) : DB :=
  modifyUser db userId fun u =>
    { u with
      totalJudgeMatches := u.totalJudgeMatches + 1
      judgeAgreements := if agreed then u.judgeAgreements + 1 else u.judgeAgreements
      judgeDisagreements := if agreed then u.judgeDisagreements else u.judgeDisagreements + 1 }

/-- `order by joined_at asc limit 1`: earliest `joinedAt`, earliest-inserted
row on ties. -/
def oldestFirst : List QueueEntry → Option QueueEntry
  | [] => none
  | e :: es =>
    match oldestFirst es with
    | none => some e
    | some b => if e.joinedAt ≤ b.joinedAt then some e else some b

/-- `findMatchInQueue`: player-type entry with `elo BETWEEN elo-range AND
elo+range` and `joined_at < NOW() - INTERVAL '1 second'`, oldest first. -/
def findMatchInQueue (now : Int) (db : DB) (elo eloRange : Int) : Option QueueEntry :=
  oldestFirst (db.queue.filter fun q =>
    q.matchType == .player
      && decide (elo - eloRange ≤ q.elo) && decide (q.elo ≤ elo + eloRange)
      && decide (q.joinedAt < now - 1000))

/-- `findJudgeInQueue`: judge-type entry, optionally excluding one user id,
oldest first. -/
def findJudgeInQueue (db : DB) (excludeUserId : Option String) : Option QueueEntry :=
  oldestFirst (db.queue.filter fun q =>
    q.matchType == .judge
      && (match excludeUserId with
          | some x => q.userId != x
          | none => true))

/-- `getUserInQueue`: `select from queue where user_id = …`. -/
def getUserInQueue (db : DB) (userId : String) : Option QueueEntry :=
  db.queue.find? (fun q => q.userId == userId)

/-- `leaveQueue`: `delete from queue where user_id = …`. -/
def leaveQueue (db : DB) (userId : String) : DB :=
  { db with queue := db.queue.filter fun q => q.userId != userId }

/-- `createMatch`: inserts a match; status is `active` (with `startedAt` set)
precisely when player2 and both judges are provided, else `waiting`;
`currentTurn` starts at player1. -/
def createMatch (now : Int) (db : DB) (newId player1Id : String)
    (player2Id judge1Id judge2Id : Option String) : Match × DB :=
  let full := player2Id.isSome && judge1Id.isSome && judge2Id.isSome
  let m : Match :=
    { id := newId
      player1Id := player1Id
      player2Id := player2Id
      judge1Id := judge1Id
      judge2Id := judge2Id
      status := if full then .active else .waiting
      currentTurn := some player1Id
      startedAt := if full then some now else none }
  (m, { db with matchRows := db.matchRows ++ [m] })

/-- `getMatch`: `select from matches where id = …`. -/
def getMatch (db : DB) (matchId : String) : Option Match :=
  db.matchRows.find? (fun m => m.id == matchId)

/-- `update matches set … where id = matchId`. -/
def modifyMatch (db : DB) (matchId : String) (g : Match → Match) : DB :=
  { db with matchRows := db.matchRows.map fun m => if m.id == matchId then g m else m }

/-- `updateMatchStatus`: sets status; stamps `endedAt` only for the two
terminal statuses (for the others Drizzle receives `undefined` and keeps
the old value). -/
def updateMatchStatus (now : Int) (db : DB) (matchId : String) (status : MatchStatus) : DB :=
  modifyMatch db matchId fun m =>
    { m with
      status := status
      endedAt := if status == .completed || status == .forfeit then some now else m.endedAt }

/-- `startMatch`: unconditionally sets `status = 'active'` and `startedAt`;
the optional judge arguments are skipped (old value kept) when absent,
matching Drizzle's treatment of `undefined` fields. -/
def startMatch (now : Int) (db : DB) (matchId : String) (player2Id : String)
    (judge1Id judge2Id : Option String) : DB :=
  modifyMatch db matchId fun m =>
    { m with
      player2Id := some player2Id
      judge1Id := match judge1Id with | some v => some v | none => m.judge1Id
      judge2Id := match judge2Id with | some v => some v | none => m.judge2Id
      status := .active
      startedAt := some now }

/-- `setMatchWinner`: records winner and scores, sets status `completed`,
stamps `endedAt`. -/
def setMatchWinner (now : Int) (db : DB) (matchId winnerId : String)
    (player1Score player2Score : Int) : DB :=
  modifyMatch db matchId fun m =>
    { m with
      winnerId := some winnerId
      player1Score := player1Score
      player2Score := player2Score
      status := .completed
      endedAt := some now }

/-- `switchTurn`: sets `currentTurn`. -/
def switchTurn (db : DB) (matchId nextUserId : String) : DB :=
  modifyMatch db matchId fun m => { m with currentTurn := some nextUserId }

/-- `createMessage`: inserts a message row. -/
def createMessage (now : Int) (db : DB) (newId matchId userId content : String) :
    Message × DB :=
  let msg : Message :=
    { id := newId, matchId := matchId, userId := userId, content := content, sentAt := now }
  (msg, { db with messages := db.messages ++ [msg] })

/-- `createJudgeRating`: inserts a judge-rating row (no uniqueness constraint
exists on `(message_id, judge_id)` in the schema). -/
def createJudgeRating (now : Int) (db : DB) (newId messageId judgeId : String)
    (rating : MoveRating) (explanation : String) : JudgeRating × DB :=
  let r : JudgeRating :=
    { id := newId, messageId := messageId, judgeId := judgeId,
      rating := rating, explanation := explanation, ratedAt := now }
  (r, { db with judgeRatings := db.judgeRatings ++ [r] })

/-- `getMessageJudgeRatings`: all ratings of a message, by `rated_at`
ascending (insertion order). -/
def getMessageJudgeRatings (db : DB) (messageId : String) : List JudgeRating :=
  db.judgeRatings.filter fun r => r.messageId == messageId

/-- `getMatchMessages`: all messages of a match, by `sent_at` ascending
(insertion order). -/
def getMatchMessages (db : DB) (matchId : String) : List Message :=
  db.messages.filter fun msg => msg.matchId == matchId

end Storage

namespace GameEngine

/-- `MATCH_DURATION = 5 * 60 * 1000` milliseconds. -/
def MATCH_DURATION : Int := 5 * 60 * 1000

/-- `ELO_K_FACTOR = 32`. -/
def ELO_K_FACTOR : Int := 32

/-- `isMatchExpired`: false when `startedAt` is unset, else
`Date.now() - startedAt > MATCH_DURATION`.  The match's own `timeLimit`
column is not consulted. -/
def isMatchExpired (now : Int) (m : Match) : Bool :=
  match m.startedAt with
  | none => false
  | some s => decide (now - s > MATCH_DURATION)

/-- `updateEloRatings`: logistic expected scores, actual scores from
`winnerId`, `Math.round` (half-up) of `elo + K * (actual - expected)`; then
ELO and win/loss counters for both players.  No-op when `player2Id` is
absent or either user row is missing. -/
noncomputable def updateEloRatings (db : DB) (player1Id : String)
    (player2Id : Option String) (winnerId : Option String) : DB :=
  match player2Id with
  | none => db
  | some p2 =>
    match Storage.getUser db player1Id, Storage.getUser db p2 with
    | some player1, some player2 =>
      let expectedScore1 : ℝ :=
        1 / (1 + (10 : ℝ) ^ ((((player2.elo - player1.elo : Int)) : ℝ) / 400))
      let expectedScore2 : ℝ := 1 - expectedScore1
      let actualScore1 : ℝ :=
        if winnerId = some player1Id then 1 else if winnerId = some p2 then 0 else 0.5
      let actualScore2 : ℝ :=
        if winnerId = some player1Id then 0 else if winnerId = some p2 then 1 else 0.5
      let newElo1 : Int :=
        round ((player1.elo : ℝ) + (ELO_K_FACTOR : ℝ) * (actualScore1 - expectedScore1))
      let newElo2 : Int :=
        round ((player2.elo : ℝ) + (ELO_K_FACTOR : ℝ) * (actualScore2 - expectedScore2))
      let dbA := Storage.updateUserElo db player1Id newElo1
      let dbB := Storage.updateUserElo dbA p2 newElo2
      let dbC := Storage.updateUserStats dbB player1Id (decide (winnerId = some player1Id))
      Storage.updateUserStats dbC p2 (decide (winnerId = some p2))
    | _, _ => db

/-- `endMatch`: no-op unless the match is `active`.  Forfeit path: winner is
the other player; when a winner exists, `setMatchWinner(id, winner, 0, 10)`
(the scores are positional: player1Score 0, player2Score 10, whoever
forfeited) and the player-ELO update; then status `forfeit`.  Natural path:
`setMatchWinner(id, '', 5, 5)` (empty winner id = draw sentinel) and a drawn
ELO update.  No expiry check is performed here. -/
noncomputable def endMatch (now : Int) (db : DB) (matchId : String)
    (forfeitUserId : Option String) : Bool × DB :=
  match Storage.getMatch db matchId with
  | none => (false, db)
  | some m =>
    if m.status ≠ .active then (false, db)
    else
      match forfeitUserId with
      | some fid =>
        let winnerId := if fid == m.player1Id then m.player2Id else some m.player1Id
        let db1 :=
          match winnerId with
          | some w =>
            let dbw := Storage.setMatchWinner now db matchId w 0 10
            updateEloRatings dbw m.player1Id m.player2Id (some w)
          | none => db
        (true, Storage.updateMatchStatus now db1 matchId .forfeit)
      | none =>
        let db1 := Storage.setMatchWinner now db matchId "" 5 5
        (true, updateEloRatings db1 m.player1Id m.player2Id none)

/-- `sendMessage`: `Match not active` unless status is `active`;
`Not your turn` unless `currentTurn` is the sender; if the match is expired,
triggers `endMatch` and reports `Match time expired`; otherwise persists the
trimmed message and flips the turn to the other player. -/
inductive SendError
  | matchNotActive
  | notYourTurn
  | timeExpired
deriving DecidableEq, Repr

/-- Result object of `sendMessage`. -/
structure SendResult where
  success : Bool
  message : Option Message := none
  error : Option SendError := none
deriving DecidableEq, Repr

/-- `GameEngine.sendMessage` (the returned state is the second component). -/
noncomputable def sendMessage (now : Int) (db : DB)
    (newMsgId matchId userId content : String) : SendResult × DB :=
  match Storage.getMatch db matchId with
  | none => ({ success := false, error := some .matchNotActive }, db)
  | some m =>
    if m.status ≠ .active then
      ({ success := false, error := some .matchNotActive }, db)
    else if m.currentTurn ≠ some userId then
      ({ success := false, error := some .notYourTurn }, db)
    else if isMatchExpired now m then
      ({ success := false, error := some .timeExpired }, (endMatch now db matchId none).2)
    else
      let msgDb := Storage.createMessage now db newMsgId matchId userId content.trim
      let nextUserId := if m.player1Id == userId then m.player2Id else some m.player1Id
      let db2 :=
        match nextUserId with
        | some nid => Storage.switchTurn msgDb.2 matchId nid
        | none => msgDb.2
      ({ success := true, message := some msgDb.1 }, db2)

/-- `JUDGE_ELO_K_FACTOR = 16` (declared in the source, unused by the formula). -/
def JUDGE_ELO_K_FACTOR : Int := 16

/-- `AGREEMENT_BONUS = 10`. -/
def AGREEMENT_BONUS : Int := 10

/-- `DISAGREEMENT_PENALTY = 5`. -/
def DISAGREEMENT_PENALTY : Int := 5

/-- `updateJudgeElos`: both judges fetched first; on agreement each gets
`max(800, judgeElo + 10)`, on disagreement `max(800, judgeElo - 5)`; then
judge stats for both.  No-op when either user row is missing. -/
def updateJudgeElos (db : DB) (judge1Id judge2Id : String) (agreed : Bool) : DB :=
  match Storage.getUser db judge1Id, Storage.getUser db judge2Id with
  | some judge1, some judge2 =>
    if agreed then
      let newElo1 := max 800 (judge1.judgeElo + AGREEMENT_BONUS)
      let newElo2 := max 800 (judge2.judgeElo + AGREEMENT_BONUS)
      let dbA := Storage.updateJudgeElo db judge1Id newElo1
      let dbB := Storage.updateJudgeElo dbA judge2Id newElo2
      let dbC := Storage.updateJudgeStats dbB judge1Id true
      Storage.updateJudgeStats dbC judge2Id true
    else
      let newElo1 := max 800 (judge1.judgeElo - DISAGREEMENT_PENALTY)
      let newElo2 := max 800 (judge2.judgeElo - DISAGREEMENT_PENALTY)
      let dbA := Storage.updateJudgeElo db judge1Id newElo1
      let dbB := Storage.updateJudgeElo dbA judge2Id newElo2
      let dbC := Storage.updateJudgeStats dbB judge1Id false
      Storage.updateJudgeStats dbC judge2Id false
  | _, _ => db

/-- Result object of `processJudgeRating`. -/
structure RateResult where
  success : Bool
  eloUpdated : Bool := false
deriving DecidableEq, Repr

/-- `processJudgeRating`: inserts the rating unconditionally (there is no
duplicate check), re-reads all ratings of the message, and when exactly two
exist fires the judge-ELO update for the two raters (distinct or not). -/
def processJudgeRating (now : Int) (db : DB) (newRatingId messageId judgeId : String)
    (rating : MoveRating) (explanation : Option String) : RateResult × DB :=
  let ins := Storage.createJudgeRating now db newRatingId messageId judgeId rating
    (explanation.getD "")
  match Storage.getMessageJudgeRatings ins.2 messageId with
  | [rating1, rating2] =>
    let agreed := rating1.rating == rating2.rating
    ({ success := true, eloUpdated := true },
      updateJudgeElos ins.2 rating1.judgeId rating2.judgeId agreed)
  | _ => ({ success := true, eloUpdated := false }, ins.2)

end GameEngine

namespace MatchmakingService

/-- `ELO_RANGE_BASE = 100`. -/
def ELO_RANGE_BASE : Int := 100

/-- `ELO_RANGE_EXPANSION = 50`. -/
def ELO_RANGE_EXPANSION : Int := 50

/-- `QUEUE_TIME_EXPANSION = 30000` milliseconds. -/
def QUEUE_TIME_EXPANSION : Int := 30000

/-- Result object of the matchmaking operations. -/
structure MatchmakingResult where
  success : Bool
  matchId : Option String := none
  opponentId : Option String := none
deriving DecidableEq, Repr

/-- `MatchmakingService.findMatch`: widening ELO window; one opponent search,
then ONE judge search (`findJudgeInQueue` with no exclusion); on success
`createMatch(userId, opponent, judge)` — the single judge becomes `judge1Id`
and `judge2Id` is never supplied — followed by `startMatch(id, opponent,
judge)` and removal of the three participants from the queue. -/
def findMatch (now : Int) (db : DB) (newMatchId userId : String) (userElo : Int) :
    MatchmakingResult × DB :=
  match Storage.getUserInQueue db userId with
  | none => ({ success := false }, db)
  | some queueEntry =>
    let queueTime := now - queueEntry.joinedAt
    let expansions := Int.fdiv queueTime QUEUE_TIME_EXPANSION
    let eloRange := ELO_RANGE_BASE + expansions * ELO_RANGE_EXPANSION
    match Storage.findMatchInQueue now db userElo eloRange with
    | none => ({ success := false }, db)
    | some opponent =>
      if opponent.userId == userId then ({ success := false }, db)
      else
        match Storage.findJudgeInQueue db none with
        | none => ({ success := false }, db)
        | some judge =>
          let created := Storage.createMatch now db newMatchId userId
            (some opponent.userId) (some judge.userId) none
          let db2 := Storage.startMatch now created.2 created.1.id opponent.userId
            (some judge.userId) none
          let db3 := Storage.leaveQueue db2 userId
          let db4 := Storage.leaveQueue db3 opponent.userId
          let db5 := Storage.leaveQueue db4 judge.userId
          ({ success := true, matchId := some created.1.id,
             opponentId := some opponent.userId }, db5)

end MatchmakingService

namespace Routes

/-- `POST /api/matches/:matchId/end` (part_004 lines 174-183): after
authentication the handler calls `GameEngine.endMatch(matchId)` directly —
the caller's identity is never compared with the match participants. -/
noncomputable def endMatchRoute (now : Int) (db : DB) (_callerId matchId : String) :
    Bool × DB :=
  GameEngine.endMatch now db matchId none

end Routes

namespace Spec

/-- Spec formula (claim C2): the match is time-expired when
`now - startedAt` exceeds the per-match `timeLimit` (seconds). -/
def specTimeExpired (now : Int) (m : Match) : Bool :=
  match m.startedAt with
  | none => false
  | some s => decide (now - s > m.timeLimit * 1000)

/-- Spec formula (claim C6): `expected1 = 1 / (1 + 10^((elo2 - elo1)/400))`. -/
noncomputable def specExpected1 (elo1 elo2 : Int) : ℝ :=
  1 / (1 + (10 : ℝ) ^ ((((elo2 - elo1 : Int)) : ℝ) / 400))

/-- Spec formula (claim C6): both new ELOs,
`round(elo + 32 * (actual - expected))` with `expected2 = 1 - expected1`
and `actual2 = 1 - actual1`. -/
noncomputable def specNewElos (elo1 elo2 : Int) (actual1 : ℝ) : Int × Int :=
  (round ((elo1 : ℝ) + 32 * (actual1 - specExpected1 elo1 elo2)),
   round ((elo2 : ℝ) + 32 * ((1 - actual1) - (1 - specExpected1 elo1 elo2))))

end Spec

/-- One `sendMessage` request: its time, generated message id, target match,
sender, and content. -/
structure SendEv where
  now : Int
  msgId : String
  matchId : String
  userId : String
  content : String

/-- Replay a sequence of `sendMessage` requests against the store. -/
noncomputable def runSends (db : DB) (evs : List SendEv) : DB :=
  evs.foldl (fun d e => (GameEngine.sendMessage e.now d e.msgId e.matchId e.userId e.content).2) db

/-- No sender appears twice in a row in a message sequence. -/
def AlternatingSenders (l : List Message) : Prop :=
  List.Chain' (fun a b => a.userId ≠ b.userId) l

/-- Turn-alternation invariant of a match id: the stored message sequence
alternates senders, and whenever the match row exists it has two distinct
players, `currentTurn` is one of them, and the last stored message was not
sent by the player on turn. -/
def MatchTurnInv (db : DB) (mid : String) : Prop :=
  AlternatingSenders (Storage.getMatchMessages db mid) ∧
  ∀ m, Storage.getMatch db mid = some m →
    ∃ p2, m.player2Id = some p2 ∧ m.player1Id ≠ p2 ∧
      (m.currentTurn = some m.player1Id ∨ m.currentTurn = some p2) ∧
      ∀ lastMsg ∈ (Storage.getMatchMessages db mid).getLast?,
        some lastMsg.userId ≠ m.currentTurn

/-- Replay a sequence of judge-ELO updates (judge1, judge2, agreed). -/
def applyJudgeEvents (db : DB) (events : List (String × String × Bool)) : DB :=
  events.foldl (fun d e => GameEngine.updateJudgeElos d e.1 e.2.1 e.2.2) db

/-- Concrete store for the matchmaking scenario: two queued players and one
queued judge (nobody inside the 1-second grace window at time 2000). -/
def c1db : DB :=
  { users := [], matchRows := [], messages := [],
    queue := [⟨"p1", 1200, .player, 500⟩, ⟨"p2", 1200, .player, 0⟩,
              ⟨"j1", 1200, .judge, 0⟩],
    judgeRatings := [] }

/-- An active match whose stored `timeLimit` is 600 seconds (non-default),
started at time 0. -/
def c2match : Match :=
  { id := "m1", player1Id := "p1", player2Id := some "p2",
    judge1Id := some "j1", judge2Id := some "j2", status := .active,
    currentTurn := some "p1", startedAt := some 0, timeLimit := 600 }

/-- Store holding `c2match` and its two players. -/
def c2db : DB :=
  { users := [{ id := "p1" }, { id := "p2" }], matchRows := [c2match],
    messages := [], queue := [], judgeRatings := [] }

/-- An active default-`timeLimit` match between `p1` and `p2`, started at
time 0, with both player rows at the default 1200 ELO. -/
def c3match : Match :=
  { id := "m1", player1Id := "p1", player2Id := some "p2",
    judge1Id := some "j1", judge2Id := some "j2", status := .active,
    currentTurn := some "p1", startedAt := some 0 }

/-- Store holding `c3match` and its two players. -/
def c3db : DB :=
  { users := [{ id := "p1" }, { id := "p2" }], matchRows := [c3match],
    messages := [], queue := [], judgeRatings := [] }

/-- Store where judge `j` has already rated message `msg1` with tier `good`. -/
def c4db : DB :=
  { users := [{ id := "j" }], matchRows := [],
    messages := [⟨"msg1", "m1", "p1", "hi", 10⟩], queue := [],
    judgeRatings := [⟨"r1", "msg1", "j", .good, "", 20⟩] }

/-- Store where judge `jA` has rated message `msg1` with tier `good` and a
second judge `jB` exists. -/
def c7db : DB :=
  { users := [{ id := "jA" }, { id := "jB" }], matchRows := [],
    messages := [⟨"msg1", "m1", "p1", "hi", 10⟩], queue := [],
    judgeRatings := [⟨"r1", "msg1", "jA", .good, "", 20⟩] }

/-- Store where two distinct judges `jA`, `jB` have already rated message
`msg1` (tiers `good` and `blunder`). -/
def c7db2 : DB :=
  { users := [{ id := "jA" }, { id := "jB" }], matchRows := [],
    messages := [⟨"msg1", "m1", "p1", "hi", 10⟩], queue := [],
    judgeRatings := [⟨"r1", "msg1", "jA", .good, "", 20⟩,
                     ⟨"r2", "msg1", "jB", .blunder, "", 25⟩] }

/-- Store with the players at ELO 1200 and 1210 for the zero-sum scenario. -/
def c8db : DB :=
  { users := [{ id := "p1" }, { id := "p2", elo := 1210 }],
    matchRows := [c3match], messages := [], queue := [], judgeRatings := [] }

/-- Two alternating `sendMessage` requests on `c3db`'s match. -/
def c9events : List SendEv :=
  [⟨100, "msgA", "m1", "p1", "hello"⟩, ⟨200, "msgB", "m1", "p2", "reply"⟩]

end Textelo

namespace Textelo

/-! ### Basic lemmas about the storage embedding -/

theorem find?_map_of_pred_inv {α : Type} (f : α → α) (p : α → Bool)
    (hf : ∀ a, p (f a) = p a) : ∀ l : List α, (l.map f).find? p = (l.find? p).map f := by
  intro l
  induction l with
  | nil => rfl
  | cons a l ih =>
    simp only [List.map_cons, List.find?_cons, hf a]
    by_cases h : p a
    · simp [h]
    · simp only [h]
      simpa using ih

namespace Storage

theorem getUser_id {db : DB} {y : String} {u : User} (h : getUser db y = some u) :
    u.id = y := by
  have := List.find?_some h
  simpa [beq_iff_eq] using this

theorem getMatch_id {db : DB} {y : String} {m : Match} (h : getMatch db y = some m) :
    m.id = y := by
  have := List.find?_some h
  simpa [beq_iff_eq] using this

theorem getUser_modifyUser (db : DB) (x : String) (g : User → User)
    (hg : ∀ u, (g u).id = u.id) (y : String) :
    getUser (modifyUser db x g) y
      = (getUser db y).map (fun u => if u.id == x then g u else u) := by
  unfold getUser modifyUser
  exact find?_map_of_pred_inv _ _
    (fun a => by by_cases h : a.id == x <;> simp [h, hg]) db.users

theorem getMatch_modifyMatch (db : DB) (x : String) (g : Match → Match)
    (hg : ∀ m, (g m).id = m.id) (y : String) :
    getMatch (modifyMatch db x g) y
      = (getMatch db y).map (fun m => if m.id == x then g m else m) := by
  unfold getMatch modifyMatch
  exact find?_map_of_pred_inv _ _
    (fun a => by by_cases h : a.id == x <;> simp [h, hg]) db.matchRows

@[simp] theorem modifyUser_matchRows (db : DB) (x : String) (g : User → User) :
    (modifyUser db x g).matchRows = db.matchRows := rfl

@[simp] theorem modifyUser_messages (db : DB) (x : String) (g : User → User) :
    (modifyUser db x g).messages = db.messages := rfl

@[simp] theorem modifyUser_queue (db : DB) (x : String) (g : User → User) :
    (modifyUser db x g).queue = db.queue := rfl

@[simp] theorem modifyUser_judgeRatings (db : DB) (x : String) (g : User → User) :
    (modifyUser db x g).judgeRatings = db.judgeRatings := rfl

@[simp] theorem modifyMatch_users (db : DB) (x : String) (g : Match → Match) :
    (modifyMatch db x g).users = db.users := rfl

@[simp] theorem modifyMatch_messages (db : DB) (x : String) (g : Match → Match) :
    (modifyMatch db x g).messages = db.messages := rfl

@[simp] theorem modifyMatch_queue (db : DB) (x : String) (g : Match → Match) :
    (modifyMatch db x g).queue = db.queue := rfl

@[simp] theorem modifyMatch_judgeRatings (db : DB) (x : String) (g : Match → Match) :
    (modifyMatch db x g).judgeRatings = db.judgeRatings := rfl

end Storage

end Textelo

namespace Textelo

/-! ### Characterisation of the ELO update -/

namespace Storage

theorem getUser_updateUserElo (db : DB) (x : String) (n : Int) (y : String) :
    getUser (updateUserElo db x n) y
      = (getUser db y).map
          (fun u => if u.id == x then { u with elo := n, peakElo := max u.peakElo n } else u) := by
  unfold updateUserElo
  rw [getUser_modifyUser]
  intro u
  rfl

theorem getUser_updateUserStats (db : DB) (x : String) (won : Bool) (y : String) :
    getUser (updateUserStats db x won) y
      = (getUser db y).map
          (fun u => if u.id == x then { u with totalMatches := u.totalMatches + 1, wins := if won then u.wins + 1 else u.wins, losses := if won then u.losses else u.losses + 1 } else u) := by
  unfold updateUserStats
  rw [getUser_modifyUser]
  intro u
  rfl

theorem getUser_updateJudgeElo (db : DB) (x : String) (n : Int) (y : String) :
    getUser (updateJudgeElo db x n) y
      = (getUser db y).map
          (fun u => if u.id == x then { u with judgeElo := n, peakJudgeElo := max u.peakJudgeElo n } else u) := by
  unfold updateJudgeElo
  rw [getUser_modifyUser]
  intro u
  rfl

theorem getUser_updateJudgeStats (db : DB) (x : String) (agreed : Bool) (y : String) :
    getUser (updateJudgeStats db x agreed) y
      = (getUser db y).map
          (fun u => if u.id == x then { u with totalJudgeMatches := u.totalJudgeMatches + 1, judgeAgreements := if agreed then u.judgeAgreements + 1 else u.judgeAgreements, judgeDisagreements := if agreed then u.judgeDisagreements else u.judgeDisagreements + 1 } else u) := by
  unfold updateJudgeStats
  rw [getUser_modifyUser]
  intro u
  rfl

end Storage

theorem updateEloRatings_getUser₁ (db : DB) (p1Id p2Id : String) (u1 u2 : User)
    (w : Option String) (h1 : Storage.getUser db p1Id = some u1)
    (h2 : Storage.getUser db p2Id = some u2) (hne : p1Id ≠ p2Id) :
    Storage.getUser (GameEngine.updateEloRatings db p1Id (some p2Id) w) p1Id =
      some { u1 with
        elo := (Spec.specNewElos u1.elo u2.elo
          (if w = some p1Id then 1 else if w = some p2Id then 0 else 0.5)).1,
        peakElo := max u1.peakElo (Spec.specNewElos u1.elo u2.elo
          (if w = some p1Id then 1 else if w = some p2Id then 0 else 0.5)).1,
        totalMatches := u1.totalMatches + 1,
        wins := if w = some p1Id then u1.wins + 1 else u1.wins,
        losses := if w = some p1Id then u1.losses else u1.losses + 1 } := by
  have e1 : u1.id = p1Id := Storage.getUser_id h1
  have e2 : u2.id = p2Id := Storage.getUser_id h2
  unfold GameEngine.updateEloRatings
  simp only [h1, h2]
  rw [Storage.getUser_updateUserStats, Storage.getUser_updateUserStats,
      Storage.getUser_updateUserElo, Storage.getUser_updateUserElo, h1]
  by_cases hw1 : w = some p1Id
  · simp [e1, e2, hw1, hne, Ne.symm hne, Spec.specNewElos, Spec.specExpected1,
      GameEngine.ELO_K_FACTOR]
  · by_cases hw2 : w = some p2Id
    · simp [e1, e2, hw1, hw2, hne, Spec.specNewElos, Spec.specExpected1,
        GameEngine.ELO_K_FACTOR]
    · simp [e1, e2, hw1, hw2, hne, Spec.specNewElos, Spec.specExpected1,
        GameEngine.ELO_K_FACTOR]

theorem updateEloRatings_getUser₂ (db : DB) (p1Id p2Id : String) (u1 u2 : User)
    (w : Option String) (h1 : Storage.getUser db p1Id = some u1)
    (h2 : Storage.getUser db p2Id = some u2) (hne : p1Id ≠ p2Id) :
    Storage.getUser (GameEngine.updateEloRatings db p1Id (some p2Id) w) p2Id =
      some { u2 with
        elo := (Spec.specNewElos u1.elo u2.elo
          (if w = some p1Id then 1 else if w = some p2Id then 0 else 0.5)).2,
        peakElo := max u2.peakElo (Spec.specNewElos u1.elo u2.elo
          (if w = some p1Id then 1 else if w = some p2Id then 0 else 0.5)).2,
        totalMatches := u2.totalMatches + 1,
        wins := if w = some p2Id then u2.wins + 1 else u2.wins,
        losses := if w = some p2Id then u2.losses else u2.losses + 1 } := by
  have e1 : u1.id = p1Id := Storage.getUser_id h1
  have e2 : u2.id = p2Id := Storage.getUser_id h2
  unfold GameEngine.updateEloRatings
  simp only [h1, h2]
  rw [Storage.getUser_updateUserStats, Storage.getUser_updateUserStats,
      Storage.getUser_updateUserElo, Storage.getUser_updateUserElo, h2]
  by_cases hw1 : w = some p1Id
  · simp [e1, e2, hw1, hne, Ne.symm hne, Spec.specNewElos, Spec.specExpected1,
      GameEngine.ELO_K_FACTOR]
  · by_cases hw2 : w = some p2Id
    · simp [e1, e2, hw1, hw2, hne, Ne.symm hne, Spec.specNewElos, Spec.specExpected1,
        GameEngine.ELO_K_FACTOR]
    · simp [e1, e2, hw1, hw2, hne, Ne.symm hne, Spec.specNewElos, Spec.specExpected1,
        GameEngine.ELO_K_FACTOR]
      have harg : (32:ℝ) * (0.5 - (1 - (1 + (10:ℝ) ^ (((u2.elo:ℝ) - (u1.elo:ℝ)) / 400))⁻¹))
          = 32 * ((1 + (10:ℝ) ^ (((u2.elo:ℝ) - (u1.elo:ℝ)) / 400))⁻¹ - 0.5) := by ring
      rw [harg]
      simp

theorem updateEloRatings_matchRows (db : DB) (a : String) (b w : Option String) :
    (GameEngine.updateEloRatings db a b w).matchRows = db.matchRows := by
  unfold GameEngine.updateEloRatings
  rcases b with _ | p2
  · rfl
  · rcases h1 : Storage.getUser db a with _ | u1 <;>
      rcases h2 : Storage.getUser db p2 with _ | u2 <;>
      simp [h1, h2, Storage.updateUserStats, Storage.updateUserElo]

theorem updateEloRatings_messages (db : DB) (a : String) (b w : Option String) :
    (GameEngine.updateEloRatings db a b w).messages = db.messages := by
  unfold GameEngine.updateEloRatings
  rcases b with _ | p2
  · rfl
  · rcases h1 : Storage.getUser db a with _ | u1 <;>
      rcases h2 : Storage.getUser db p2 with _ | u2 <;>
      simp [h1, h2, Storage.updateUserStats, Storage.updateUserElo]

theorem updateEloRatings_queue (db : DB) (a : String) (b w : Option String) :
    (GameEngine.updateEloRatings db a b w).queue = db.queue := by
  unfold GameEngine.updateEloRatings
  rcases b with _ | p2
  · rfl
  · rcases h1 : Storage.getUser db a with _ | u1 <;>
      rcases h2 : Storage.getUser db p2 with _ | u2 <;>
      simp [h1, h2, Storage.updateUserStats, Storage.updateUserElo]

theorem updateEloRatings_judgeRatings (db : DB) (a : String) (b w : Option String) :
    (GameEngine.updateEloRatings db a b w).judgeRatings = db.judgeRatings := by
  unfold GameEngine.updateEloRatings
  rcases b with _ | p2
  · rfl
  · rcases h1 : Storage.getUser db a with _ | u1 <;>
      rcases h2 : Storage.getUser db p2 with _ | u2 <;>
      simp [h1, h2, Storage.updateUserStats, Storage.updateUserElo]

theorem updateEloRatings_users_congr {dbA dbB : DB} (hu : dbA.users = dbB.users)
    (a : String) (b w : Option String) :
    (GameEngine.updateEloRatings dbA a b w).users
      = (GameEngine.updateEloRatings dbB a b w).users := by
  have hg : ∀ y, Storage.getUser dbA y = Storage.getUser dbB y := by
    intro y
    unfold Storage.getUser
    rw [hu]
  unfold GameEngine.updateEloRatings
  rcases b with _ | p2
  · exact hu
  · simp only [hg]
    rcases h1 : Storage.getUser dbB a with _ | u1 <;>
      rcases h2 : Storage.getUser dbB p2 with _ | u2 <;>
      simp [Storage.updateUserStats, Storage.updateUserElo, Storage.modifyUser, hu]

end Textelo

namespace Textelo

/-! ### Real-number facts about the ELO formula -/

theorem ten_rpow_pos (x : ℝ) : 0 < (10 : ℝ) ^ x :=
  Real.rpow_pos_of_pos (by norm_num) x

theorem specExpected1_pos (e1 e2 : Int) : 0 < Spec.specExpected1 e1 e2 := by
  unfold Spec.specExpected1
  have := ten_rpow_pos ((((e2 - e1 : Int)) : ℝ) / 400)
  positivity

theorem specExpected1_lt_one (e1 e2 : Int) : Spec.specExpected1 e1 e2 < 1 := by
  unfold Spec.specExpected1
  have h := ten_rpow_pos ((((e2 - e1 : Int)) : ℝ) / 400)
  rw [div_lt_one (by linarith)]
  linarith

theorem int_pow_left_inj {a b : ℤ} (ha : 0 < a) (hb : 0 < b)
    (h : a ^ (400 : ℕ) = b ^ (400 : ℕ)) : a = b := by
  rcases lt_trichotomy a b with hlt | he | hgt
  · have := pow_lt_pow_left₀ hlt (le_of_lt ha) (n := 400) (by norm_num)
    omega
  · exact he
  · have := pow_lt_pow_left₀ hgt (le_of_lt hb) (n := 400) (by norm_num)
    omega

theorem tenpow_eq_int_zpow (e1 e2 : Int) :
    ((10 : ℝ) ^ ((((e2 - e1 : Int)) : ℝ) / 400)) ^ (400 : ℕ)
      = (10 : ℝ) ^ (e2 - e1 : ℤ) := by
  rw [← Real.rpow_natCast ((10 : ℝ) ^ ((((e2 - e1 : Int)) : ℝ) / 400)) 400,
      ← Real.rpow_mul (by norm_num : (0:ℝ) ≤ 10)]
  have harg : (((e2 - e1 : Int)) : ℝ) / 400 * ((400 : ℕ) : ℝ) = ((e2 - e1 : ℤ) : ℝ) := by
    push_cast
    field_simp
  rw [harg, Real.rpow_intCast]

theorem specExpected1_mul32_ne_half_odd (e1 e2 : Int) (k : ℤ) :
    32 * Spec.specExpected1 e1 e2 ≠ (k : ℝ) + 1 / 2 := by
  intro hk
  have hp : Spec.specExpected1 e1 e2
      = 1 / (1 + (10:ℝ) ^ ((((e2 - e1 : Int)) : ℝ) / 400)) := rfl
  set x : ℝ := (((e2 - e1 : Int)) : ℝ) / 400 with hxdef
  set t : ℝ := (10:ℝ) ^ x with htdef
  have ht : 0 < t := ten_rpow_pos x
  have h1t : (0:ℝ) < 1 + t := by linarith
  set m : ℤ := 2 * k + 1 with hmdef
  have hk' : 32 * (1 / (1 + t)) = (k:ℝ) + 1/2 := by
    rw [hp] at hk
    exact hk
  have hm64 : (m : ℝ) * (1 + t) = 64 := by
    rw [hmdef]
    push_cast
    field_simp at hk'
    linarith [hk']
  have hmpos : 0 < (m:ℝ) := by nlinarith
  have hmlt : (m:ℝ) < 64 := by nlinarith
  have hmposZ : 0 < m := by exact_mod_cast hmpos
  have hmltZ : m < 64 := by exact_mod_cast hmlt
  have hmne : (m:ℝ) ≠ 0 := ne_of_gt hmpos
  have htm : t = ((64 - m : ℤ) : ℝ) / (m : ℝ) := by
    push_cast
    rw [eq_div_iff hmne]
    linarith [hm64]
  have hpow : (((64 - m : ℤ) : ℝ) / (m : ℝ)) ^ (400:ℕ) = (10:ℝ) ^ (e2 - e1 : ℤ) := by
    rw [← htm, htdef]
    exact tenpow_eq_int_zpow e1 e2
  rw [div_pow] at hpow
  have hMp : ((m:ℤ):ℝ) ^ (400:ℕ) ≠ 0 := pow_ne_zero _ hmne
  rw [div_eq_iff hMp] at hpow
  have hA : (0:ℤ) < 64 - m := by omega
  rcases lt_trichotomy (e2 - e1 : ℤ) 0 with hd | hd | hd
  · -- negative exponent: (64-m)^400 * 10^n = m^400, but even ≠ odd
    set n : ℕ := (-(e2 - e1 : ℤ)).toNat with hndef
    have hn1 : 1 ≤ n := by omega
    have hdn : (e2 - e1 : ℤ) = -(n : ℤ) := by omega
    rw [hdn, zpow_neg, zpow_natCast, inv_mul_eq_div, eq_div_iff
      (pow_ne_zero _ (by norm_num : (10:ℝ) ≠ 0))] at hpow
    have hZ : (64 - m) ^ (400:ℕ) * 10 ^ (n:ℕ) = m ^ (400:ℕ) := by exact_mod_cast hpow
    have hdvd : (2:ℤ) ∣ m ^ (400:ℕ) := by
      rw [← hZ]
      exact dvd_mul_of_dvd_right (dvd_pow (by norm_num : (2:ℤ) ∣ 10) (by omega)) _
    have h2m : (2:ℤ) ∣ m := Int.Prime.dvd_pow' (by norm_num) hdvd
    omega
  · -- zero exponent: (64-m)^400 = m^400 forces m = 32, even
    rw [hd, zpow_zero, one_mul] at hpow
    have hZ : (64 - m) ^ (400:ℕ) = m ^ (400:ℕ) := by exact_mod_cast hpow
    have := int_pow_left_inj hA hmposZ hZ
    omega
  · -- positive exponent: (64-m)^400 = 10^n * m^400, but odd ≠ even
    set n : ℕ := (e2 - e1 : ℤ).toNat with hndef
    have hn1 : 1 ≤ n := by omega
    have hdn : (e2 - e1 : ℤ) = (n : ℤ) := by omega
    rw [hdn, zpow_natCast] at hpow
    have hZ : (64 - m) ^ (400:ℕ) = 10 ^ (n:ℕ) * m ^ (400:ℕ) := by exact_mod_cast hpow
    have hdvd : (2:ℤ) ∣ (64 - m) ^ (400:ℕ) := by
      rw [hZ]
      exact dvd_mul_of_dvd_left (dvd_pow (by norm_num : (2:ℤ) ∣ 10) (by omega)) _
    have h2m : (2:ℤ) ∣ (64 - m) := Int.Prime.dvd_pow' (by norm_num) hdvd
    omega

theorem round_add_round_neg (u : ℝ) (h : ∀ k : ℤ, u ≠ (k:ℝ) + 1/2) :
    round u + round (-u) = 0 := by
  have h2 : Int.fract (u + 1/2) ≠ 0 := by
    intro h0
    have hsf := Int.self_sub_fract (u + 1/2)
    rw [h0, sub_zero] at hsf
    exact h (⌊u + 1/2⌋ - 1) (by push_cast; linarith)
  rw [round_eq, round_eq]
  have hy1 := Int.floor_add_fract (u + 1/2)
  have hfn : Int.fract (-(u + 1/2)) = 1 - Int.fract (u + 1/2) := Int.fract_neg h2
  have hy2 := Int.floor_add_fract (-(u + 1/2))
  have harg : -u + 1/2 = (-(u + 1/2)) + ((1:ℤ):ℝ) := by push_cast; ring
  rw [harg, Int.floor_add_int]
  have hr : ((⌊u + 1/2⌋:ℤ):ℝ) + ((⌊-(u+1/2)⌋:ℤ):ℝ) + 1 = 0 := by
    rw [hfn] at hy2
    linarith [hy1, hy2]
  have hz : ⌊u + 1/2⌋ + ⌊-(u+1/2)⌋ + 1 = 0 := by exact_mod_cast hr
  omega

theorem specNewElos_sum (e1 e2 : Int) (a1 : ℝ) (ha : a1 = 0 ∨ a1 = 1) :
    (Spec.specNewElos e1 e2 a1).1 + (Spec.specNewElos e1 e2 a1).2 = e1 + e2 := by
  unfold Spec.specNewElos
  set p : ℝ := Spec.specExpected1 e1 e2 with hpdef
  set u : ℝ := 32 * (a1 - p) with hudef
  have key : ∀ k : ℤ, u ≠ (k:ℝ) + 1/2 := by
    intro k hk
    rcases ha with h0 | h1
    · apply specExpected1_mul32_ne_half_odd e1 e2 (-(k + 1))
      rw [hudef, h0] at hk
      rw [← hpdef]
      push_cast
      linarith [hk]
    · apply specExpected1_mul32_ne_half_odd e1 e2 (31 - k)
      rw [hudef, h1] at hk
      rw [← hpdef]
      push_cast
      linarith [hk]
  have harg1 : (e1 : ℝ) + 32 * (a1 - p) = ((e1:ℤ):ℝ) + u := by rw [hudef]
  have harg2 : (e2 : ℝ) + 32 * ((1 - a1) - (1 - p)) = ((e2:ℤ):ℝ) + -u := by
    rw [hudef]
    ring
  simp only [harg1, harg2]
  rw [add_comm ((e1:ℤ):ℝ) u, add_comm ((e2:ℤ):ℝ) (-u), round_add_int, round_add_int]
  have := round_add_round_neg u key
  omega

end Textelo

namespace Textelo

theorem specExpected1_same (e : Int) : Spec.specExpected1 e e = 1 / 2 := by
  unfold Spec.specExpected1
  rw [sub_self]
  push_cast
  rw [zero_div, Real.rpow_zero]
  norm_num

theorem specNewElos_at_1200 : Spec.specNewElos 1200 1200 1 = (1216, 1184) := by
  unfold Spec.specNewElos
  rw [specExpected1_same]
  have h1 : ((1200:ℤ) : ℝ) + 32 * (1 - 1 / 2) = ((1216:ℤ) : ℝ) := by norm_num
  have h2 : ((1200:ℤ) : ℝ) + 32 * ((1 - 1) - (1 - 1 / 2)) = ((1184:ℤ) : ℝ) := by norm_num
  rw [h1, h2, round_intCast, round_intCast]

/-- Claim C6: for every ended match with both players assigned, each player's
new ELO equals `round(elo + 32 * (actual - expected))` with
`expected1 = 1/(1+10^((elo2-elo1)/400))`, `expected2 = 1 - expected1`, and
actual 1 for the winner, 0 for the loser, 0.5 each on a draw; in particular
equal 1200 ELOs with player1 winning yield 1216 and 1184. -/
theorem claim_C6_elo_formula :
    (∀ (db : DB) (p1Id p2Id : String) (u1 u2 : User) (w : Option String),
      Storage.getUser db p1Id = some u1 → Storage.getUser db p2Id = some u2 →
      p1Id ≠ p2Id →
      ∃ u1' u2',
        Storage.getUser (GameEngine.updateEloRatings db p1Id (some p2Id) w) p1Id
          = some u1' ∧
        Storage.getUser (GameEngine.updateEloRatings db p1Id (some p2Id) w) p2Id
          = some u2' ∧
        u1'.elo = (Spec.specNewElos u1.elo u2.elo
          (if w = some p1Id then 1 else if w = some p2Id then 0 else 0.5)).1 ∧
        u2'.elo = (Spec.specNewElos u1.elo u2.elo
          (if w = some p1Id then 1 else if w = some p2Id then 0 else 0.5)).2) ∧
    Spec.specNewElos 1200 1200 1 = (1216, 1184) := by
  constructor
  · intro db p1Id p2Id u1 u2 w h1 h2 hne
    exact ⟨_, _, updateEloRatings_getUser₁ db p1Id p2Id u1 u2 w h1 h2 hne,
      updateEloRatings_getUser₂ db p1Id p2Id u1 u2 w h1 h2 hne, rfl, rfl⟩
  · exact specNewElos_at_1200

/-- Witness for C6: on the concrete store `c3db` (both players at 1200),
ending with winner player1 stores ELO 1216 for player1 and 1184 for
player2. -/
theorem claim_C6_elo_formula_witness :
    (Storage.getUser (GameEngine.updateEloRatings c3db "p1" (some "p2") (some "p1")) "p1").map
        User.elo = some 1216 ∧
    (Storage.getUser (GameEngine.updateEloRatings c3db "p1" (some "p2") (some "p1")) "p2").map
        User.elo = some 1184 := by
  obtain ⟨u1', u2', hg1, hg2, he1, he2⟩ :=
    claim_C6_elo_formula.1 c3db "p1" "p2" { id := "p1" } { id := "p2" } (some "p1")
      (by decide) (by decide) (by decide)
  have hinst := claim_C6_elo_formula.2
  rw [hg1, hg2]
  simp [he1, he2, hinst]

/-- Claim C8: for every completed match with a determined winner the rounded
ELO updates are zero-sum: the two new ELOs add up to the two old ELOs. -/
theorem claim_C8_zero_sum (db : DB) (p1Id p2Id : String) (u1 u2 : User)
    (w : String) (h1 : Storage.getUser db p1Id = some u1)
    (h2 : Storage.getUser db p2Id = some u2) (hne : p1Id ≠ p2Id)
    (hw : w = p1Id ∨ w = p2Id) :
    ∃ u1' u2',
      Storage.getUser (GameEngine.updateEloRatings db p1Id (some p2Id) (some w)) p1Id
        = some u1' ∧
      Storage.getUser (GameEngine.updateEloRatings db p1Id (some p2Id) (some w)) p2Id
        = some u2' ∧
      u1'.elo + u2'.elo = u1.elo + u2.elo := by
  refine ⟨_, _, updateEloRatings_getUser₁ db p1Id p2Id u1 u2 (some w) h1 h2 hne,
    updateEloRatings_getUser₂ db p1Id p2Id u1 u2 (some w) h1 h2 hne, ?_⟩
  rcases hw with hw | hw
  · subst hw
    simp only [if_pos rfl]
    exact specNewElos_sum u1.elo u2.elo 1 (Or.inr rfl)
  · subst hw
    have hne' : (some w : Option String) ≠ some p1Id := by
      simpa using Ne.symm hne
    rw [if_neg hne', if_pos rfl]
    exact specNewElos_sum u1.elo u2.elo 0 (Or.inl rfl)

/-- Witness for C8: with stored ELOs 1200 and 1210 and player1 winning, the
new ELOs still sum to 2410. -/
theorem claim_C8_zero_sum_witness :
    ∃ u1' u2',
      Storage.getUser (GameEngine.updateEloRatings c8db "p1" (some "p2") (some "p1")) "p1"
        = some u1' ∧
      Storage.getUser (GameEngine.updateEloRatings c8db "p1" (some "p2") (some "p1")) "p2"
        = some u2' ∧
      u1'.elo + u2'.elo = 2410 := by
  obtain ⟨u1', u2', hg1, hg2, hsum⟩ :=
    claim_C8_zero_sum c8db "p1" "p2" { id := "p1" } { id := "p2", elo := 1210 } "p1"
      (by decide) (by decide) (by decide) (Or.inl rfl)
  exact ⟨u1', u2', hg1, hg2, by rw [hsum]; decide⟩

end Textelo

namespace Textelo

theorem updateEloRatings_getMatch (db : DB) (a : String) (b w : Option String)
    (y : String) :
    Storage.getMatch (GameEngine.updateEloRatings db a b w) y = Storage.getMatch db y := by
  unfold Storage.getMatch
  rw [updateEloRatings_matchRows]

namespace Storage

theorem getUser_modifyMatch (db : DB) (x : String) (g : Match → Match) (y : String) :
    getUser (modifyMatch db x g) y = getUser db y := rfl

theorem getMatch_setMatchWinner (now : Int) (db : DB) (matchId winnerId : String)
    (s1 s2 : Int) (y : String) :
    getMatch (setMatchWinner now db matchId winnerId s1 s2) y
      = (getMatch db y).map (fun m => if m.id == matchId then
          { m with
            winnerId := some winnerId
            player1Score := s1
            player2Score := s2
            status := .completed
            endedAt := some now } else m) := by
  unfold setMatchWinner
  rw [getMatch_modifyMatch]
  intro m
  rfl

theorem getMatch_updateMatchStatus (now : Int) (db : DB) (matchId : String)
    (status : MatchStatus) (y : String) :
    getMatch (updateMatchStatus now db matchId status) y
      = (getMatch db y).map (fun m => if m.id == matchId then
          { m with
            status := status
            endedAt := if status == .completed || status == .forfeit then some now
              else m.endedAt } else m) := by
  unfold updateMatchStatus
  rw [getMatch_modifyMatch]
  intro m
  rfl

theorem getMatch_switchTurn (db : DB) (matchId nextUserId : String) (y : String) :
    getMatch (switchTurn db matchId nextUserId) y
      = (getMatch db y).map (fun m => if m.id == matchId then
          { m with currentTurn := some nextUserId } else m) := by
  unfold switchTurn
  rw [getMatch_modifyMatch]
  intro m
  rfl

end Storage

theorem endMatch_draw_spec (now : Int) (db : DB) (matchId : String) (m : Match)
    (hm : Storage.getMatch db matchId = some m) (hact : m.status = .active) :
    (GameEngine.endMatch now db matchId none).1 = true ∧
    Storage.getMatch (GameEngine.endMatch now db matchId none).2 matchId
      = some { m with
          winnerId := some ""
          player1Score := 5
          player2Score := 5
          status := .completed
          endedAt := some now } ∧
    ((GameEngine.endMatch now db matchId none).2).users
      = (GameEngine.updateEloRatings db m.player1Id m.player2Id none).users := by
  have hid : m.id = matchId := Storage.getMatch_id hm
  unfold GameEngine.endMatch
  simp only [hm]
  rw [if_neg (by simp [hact])]
  refine ⟨rfl, ?_, ?_⟩
  · rw [updateEloRatings_getMatch, Storage.getMatch_setMatchWinner, hm]
    simp [hid]
  · exact updateEloRatings_users_congr
      (show (Storage.setMatchWinner now db matchId "" 5 5).users = db.users from rfl)
      m.player1Id m.player2Id none

theorem endMatch_forfeit_spec (now : Int) (db : DB) (matchId : String) (m : Match)
    (p2 fid : String) (hm : Storage.getMatch db matchId = some m)
    (hact : m.status = .active) (hp2 : m.player2Id = some p2) :
    (GameEngine.endMatch now db matchId (some fid)).1 = true ∧
    Storage.getMatch (GameEngine.endMatch now db matchId (some fid)).2 matchId
      = some { m with
          winnerId := some (if fid = m.player1Id then p2 else m.player1Id)
          player1Score := 0
          player2Score := 10
          status := .forfeit
          endedAt := some now } ∧
    ((GameEngine.endMatch now db matchId (some fid)).2).users
      = (GameEngine.updateEloRatings db m.player1Id m.player2Id
          (some (if fid = m.player1Id then p2 else m.player1Id))).users := by
  have hid : m.id = matchId := Storage.getMatch_id hm
  unfold GameEngine.endMatch
  simp only [hm]
  rw [if_neg (by simp [hact])]
  by_cases hc : fid = m.player1Id
  · have hb : (fid == m.player1Id) = true := by simp [hc]
    simp only [hb, if_true, hp2]
    refine ⟨by trivial, ?_, ?_⟩
    · rw [Storage.getMatch_updateMatchStatus, updateEloRatings_getMatch,
        Storage.getMatch_setMatchWinner, hm]
      simp [hid, hc, hp2]
    · have hu : (GameEngine.updateEloRatings (Storage.setMatchWinner now db matchId p2 0 10)
          m.player1Id (some p2) (some p2)).users
          = (GameEngine.updateEloRatings db m.player1Id (some p2) (some p2)).users :=
        updateEloRatings_users_congr
          (show (Storage.setMatchWinner now db matchId p2 0 10).users = db.users from rfl)
          m.player1Id (some p2) (some p2)
      simp [hc, hp2, hu, Storage.updateMatchStatus, Storage.modifyMatch]
  · have hb : (fid == m.player1Id) = false := by simp [hc]
    simp only [hb, Bool.false_eq_true, if_false]
    refine ⟨by trivial, ?_, ?_⟩
    · rw [Storage.getMatch_updateMatchStatus, updateEloRatings_getMatch,
        Storage.getMatch_setMatchWinner, hm]
      simp [hid, hc]
    · have hu : (GameEngine.updateEloRatings
          (Storage.setMatchWinner now db matchId m.player1Id 0 10)
          m.player1Id m.player2Id (some m.player1Id)).users
          = (GameEngine.updateEloRatings db m.player1Id m.player2Id
              (some m.player1Id)).users :=
        updateEloRatings_users_congr
          (show (Storage.setMatchWinner now db matchId m.player1Id 0 10).users = db.users
            from rfl)
          m.player1Id m.player2Id (some m.player1Id)
      simp [hc, hu, Storage.updateMatchStatus, Storage.modifyMatch]

/-- Claim C3 (amended): for an active match with both players, a forfeit by a
participant records the other player as winner, applies the player-ELO
update with that winner, sets status `forfeit` and stamps `endedAt` — but
the recorded scores are positional (`player1Score = 0`, `player2Score = 10`
regardless of which player forfeited), so the forfeiter receives 0 and the
winner 10 only when player1 is the forfeiter. -/
theorem claim_C3_forfeit (now : Int) (db : DB) (matchId : String) (m : Match)
    (p2 fid : String) (hm : Storage.getMatch db matchId = some m)
    (hact : m.status = .active) (hp2 : m.player2Id = some p2)
    (_hfid : fid = m.player1Id ∨ fid = p2) :
    (GameEngine.endMatch now db matchId (some fid)).1 = true ∧
    Storage.getMatch (GameEngine.endMatch now db matchId (some fid)).2 matchId
      = some { m with
          winnerId := some (if fid = m.player1Id then p2 else m.player1Id)
          player1Score := 0
          player2Score := 10
          status := .forfeit
          endedAt := some now } ∧
    ((GameEngine.endMatch now db matchId (some fid)).2).users
      = (GameEngine.updateEloRatings db m.player1Id m.player2Id
          (some (if fid = m.player1Id then p2 else m.player1Id))).users :=
  endMatch_forfeit_spec now db matchId m p2 fid hm hact hp2

/-- Counterexample to C3 as stated: when player2 forfeits, the winner is
player1 but the stored scores are `player1Score = 0`, `player2Score = 10`,
so the winner receives 0 and the forfeiting player receives 10. -/
theorem claim_C3_forfeit_counterexample :
    (GameEngine.endMatch 1000 c3db "m1" (some "p2")).1 = true ∧
    (Storage.getMatch (GameEngine.endMatch 1000 c3db "m1" (some "p2")).2 "m1").map
        Match.winnerId = some (some "p1") ∧
    (Storage.getMatch (GameEngine.endMatch 1000 c3db "m1" (some "p2")).2 "m1").map
        Match.player1Score = some 0 ∧
    (Storage.getMatch (GameEngine.endMatch 1000 c3db "m1" (some "p2")).2 "m1").map
        Match.player2Score = some 10 ∧
    (Storage.getMatch (GameEngine.endMatch 1000 c3db "m1" (some "p2")).2 "m1").map
        Match.status = some MatchStatus.forfeit := by
  decide

/-- Witness for C3: player1 forfeits the concrete match `c3db`, so player2 is
recorded as winner with the positional 0/10 scores, status `forfeit`. -/
theorem claim_C3_forfeit_witness :
    (GameEngine.endMatch 1000 c3db "m1" (some "p1")).1 = true ∧
    Storage.getMatch (GameEngine.endMatch 1000 c3db "m1" (some "p1")).2 "m1"
      = some { c3match with
          winnerId := some (if "p1" = c3match.player1Id then "p2" else c3match.player1Id)
          player1Score := 0
          player2Score := 10
          status := .forfeit
          endedAt := some 1000 } ∧
    ((GameEngine.endMatch 1000 c3db "m1" (some "p1")).2).users
      = (GameEngine.updateEloRatings c3db c3match.player1Id c3match.player2Id
          (some (if "p1" = c3match.player1Id then "p2" else c3match.player1Id))).users :=
  claim_C3_forfeit 1000 c3db "m1" c3match "p2" "p1" (by decide) rfl rfl
    (Or.inl (by decide))

/-- Claim C5 (amended): on every ELO-settled match end with both players
present, each player's `totalMatches` rises by 1 and exactly one of
`wins`/`losses` rises — the winner's `wins`, and in every other case
(including the undetermined draw outcome) the player's `losses`.  The
original claim fails: an undetermined outcome still increments both
players' `totalMatches` and `losses`. -/
theorem claim_C5_match_counters (db : DB) (p1Id p2Id : String) (u1 u2 : User)
    (w : Option String) (h1 : Storage.getUser db p1Id = some u1)
    (h2 : Storage.getUser db p2Id = some u2) (hne : p1Id ≠ p2Id) :
    ∃ u1' u2',
      Storage.getUser (GameEngine.updateEloRatings db p1Id (some p2Id) w) p1Id
        = some u1' ∧
      Storage.getUser (GameEngine.updateEloRatings db p1Id (some p2Id) w) p2Id
        = some u2' ∧
      u1'.totalMatches = u1.totalMatches + 1 ∧
      u2'.totalMatches = u2.totalMatches + 1 ∧
      u1'.wins = (if w = some p1Id then u1.wins + 1 else u1.wins) ∧
      u1'.losses = (if w = some p1Id then u1.losses else u1.losses + 1) ∧
      u2'.wins = (if w = some p2Id then u2.wins + 1 else u2.wins) ∧
      u2'.losses = (if w = some p2Id then u2.losses else u2.losses + 1) :=
  ⟨_, _, updateEloRatings_getUser₁ db p1Id p2Id u1 u2 w h1 h2 hne,
    updateEloRatings_getUser₂ db p1Id p2Id u1 u2 w h1 h2 hne,
    rfl, rfl, rfl, rfl, rfl, rfl⟩

/-- Counterexample to C5 as stated: ending the concrete match `c3db` on the
natural (draw-sentinel) path still increments both players' `totalMatches`
and `losses`, though the claim says no counter moves. -/
theorem claim_C5_match_counters_counterexample :
    (GameEngine.endMatch 1000 c3db "m1" none).1 = true ∧
    (Storage.getMatch (GameEngine.endMatch 1000 c3db "m1" none).2 "m1").map
        Match.winnerId = some (some "") ∧
    (Storage.getUser (GameEngine.endMatch 1000 c3db "m1" none).2 "p1").map
        User.totalMatches = some 1 ∧
    (Storage.getUser (GameEngine.endMatch 1000 c3db "m1" none).2 "p1").map
        User.losses = some 1 ∧
    (Storage.getUser (GameEngine.endMatch 1000 c3db "m1" none).2 "p2").map
        User.totalMatches = some 1 ∧
    (Storage.getUser (GameEngine.endMatch 1000 c3db "m1" none).2 "p2").map
        User.losses = some 1 := by
  decide

/-- Witness for C5: with player1 winning on `c3db`, player1's counters move
to 1 win / 0 losses and player2's to 0 wins / 1 loss. -/
theorem claim_C5_match_counters_witness :
    ∃ u1' u2',
      Storage.getUser (GameEngine.updateEloRatings c3db "p1" (some "p2") (some "p1")) "p1"
        = some u1' ∧
      Storage.getUser (GameEngine.updateEloRatings c3db "p1" (some "p2") (some "p1")) "p2"
        = some u2' ∧
      u1'.totalMatches = 1 ∧ u2'.totalMatches = 1 ∧
      u1'.wins = 1 ∧ u1'.losses = 0 ∧ u2'.wins = 0 ∧ u2'.losses = 1 := by
  obtain ⟨u1', u2', hg1, hg2, ht1, ht2, hw1, hl1, hw2, hl2⟩ :=
    claim_C5_match_counters c3db "p1" "p2" { id := "p1" } { id := "p2" } (some "p1")
      (by decide) (by decide) (by decide)
  refine ⟨u1', u2', hg1, hg2, ?_, ?_, ?_, ?_, ?_, ?_⟩ <;>
    simp_all

/-- Claim C10: on any active match, the end route succeeds for any
authenticated caller — no participant check and no elapsed-time check —
recording the empty winner id (draw sentinel), scores 5/5, status
`completed`, `endedAt`, and the drawn player-ELO update. -/
theorem claim_C10_public_end (now : Int) (db : DB) (caller matchId : String)
    (m : Match) (hm : Storage.getMatch db matchId = some m)
    (hact : m.status = .active) :
    (Routes.endMatchRoute now db caller matchId).1 = true ∧
    (∀ caller', Routes.endMatchRoute now db caller' matchId
        = Routes.endMatchRoute now db caller matchId) ∧
    Storage.getMatch (Routes.endMatchRoute now db caller matchId).2 matchId
      = some { m with
          winnerId := some ""
          player1Score := 5
          player2Score := 5
          status := .completed
          endedAt := some now } ∧
    ((Routes.endMatchRoute now db caller matchId).2).users
      = (GameEngine.updateEloRatings db m.player1Id m.player2Id none).users := by
  obtain ⟨ha, hb, hc⟩ := endMatch_draw_spec now db matchId m hm hact
  exact ⟨ha, fun caller' => rfl, hb, hc⟩

/-- Witness for C10: a non-participant caller ends `c3db`'s match long after
any time limit; the call succeeds and records the draw sentinel. -/
theorem claim_C10_public_end_witness :
    (Routes.endMatchRoute 99999999 c3db "stranger" "m1").1 = true ∧
    (∀ caller', Routes.endMatchRoute 99999999 c3db caller' "m1"
        = Routes.endMatchRoute 99999999 c3db "stranger" "m1") ∧
    Storage.getMatch (Routes.endMatchRoute 99999999 c3db "stranger" "m1").2 "m1"
      = some { c3match with
          winnerId := some ""
          player1Score := 5
          player2Score := 5
          status := .completed
          endedAt := some 99999999 } ∧
    ((Routes.endMatchRoute 99999999 c3db "stranger" "m1").2).users
      = (GameEngine.updateEloRatings c3db c3match.player1Id c3match.player2Id none).users :=
  claim_C10_public_end 99999999 c3db "stranger" "m1" c3match (by decide) rfl

end Textelo

namespace Textelo

/-- Claim C2 (amended): for an active match whose turn-holder sends, the send
fails with the time-expired error (and the resulting state is the
`endMatch` state) exactly when `now - startedAt` exceeds the fixed
five-minute constant `MATCH_DURATION` — the stored per-match `timeLimit`
column is never consulted; the constant agrees with the per-match rule
exactly for the default `timeLimit = 300`. -/
theorem claim_C2_time_limit (now : Int) (db : DB)
    (newMsgId matchId userId content : String) (m : Match) (s : Int)
    (hm : Storage.getMatch db matchId = some m) (hact : m.status = .active)
    (hturn : m.currentTurn = some userId) (hs : m.startedAt = some s) :
    ((GameEngine.sendMessage now db newMsgId matchId userId content).1.error
        = some GameEngine.SendError.timeExpired ↔
      GameEngine.MATCH_DURATION < now - s) ∧
    (GameEngine.isMatchExpired now m = true →
      (GameEngine.sendMessage now db newMsgId matchId userId content).2
        = (GameEngine.endMatch now db matchId none).2) ∧
    (m.timeLimit = 300 →
      GameEngine.isMatchExpired now m = Spec.specTimeExpired now m) := by
  have hexp_iff : GameEngine.isMatchExpired now m = true ↔
      GameEngine.MATCH_DURATION < now - s := by
    simp [GameEngine.isMatchExpired, hs]
  have h3 : m.timeLimit = 300 →
      GameEngine.isMatchExpired now m = Spec.specTimeExpired now m := by
    intro h300
    simp only [GameEngine.isMatchExpired, Spec.specTimeExpired, hs, h300,
      GameEngine.MATCH_DURATION]
    norm_num
  unfold GameEngine.sendMessage
  simp only [hm]
  rw [if_neg (by simp [hact]), if_neg (by simp [hturn])]
  by_cases hexp : GameEngine.isMatchExpired now m = true
  · rw [if_pos hexp]
    exact ⟨by simp [hexp_iff.mp hexp], fun _ => rfl, h3⟩
  · rw [if_neg hexp]
    have hnotlt : ¬ GameEngine.MATCH_DURATION < now - s := fun hlt =>
      hexp (hexp_iff.mpr hlt)
    exact ⟨by simp [hnotlt], fun hh => absurd hh hexp, h3⟩

/-- Counterexample to C2 as stated: `c2match` stores `timeLimit = 600`
seconds but at 400 elapsed seconds the engine already reports expiry and
`sendMessage` already fails with the time-expired error, although
`now - startedAt` does not exceed the stored `timeLimit`. -/
theorem claim_C2_time_limit_counterexample :
    GameEngine.isMatchExpired 400000 c2match = true ∧
    Spec.specTimeExpired 400000 c2match = false ∧
    (GameEngine.sendMessage 400000 c2db "msgX" "m1" "p1" "hi").1.error
      = some GameEngine.SendError.timeExpired ∧
    400000 - 0 ≤ c2match.timeLimit * 1000 := by
  decide

/-- Witness for C2: on the default-limit match `c3match` at elapsed
300001 ms the send fails with the time-expired error, the state is the
`endMatch` state, and the constant coincides with the stored limit. -/
theorem claim_C2_time_limit_witness :
    ((GameEngine.sendMessage 300001 c3db "msgX" "m1" "p1" "hi").1.error
        = some GameEngine.SendError.timeExpired ↔
      GameEngine.MATCH_DURATION < 300001 - 0) ∧
    (GameEngine.isMatchExpired 300001 c3match = true →
      (GameEngine.sendMessage 300001 c3db "msgX" "m1" "p1" "hi").2
        = (GameEngine.endMatch 300001 c3db "m1" none).2) ∧
    (c3match.timeLimit = 300 →
      GameEngine.isMatchExpired 300001 c3match = Spec.specTimeExpired 300001 c3match) :=
  claim_C2_time_limit 300001 c3db "msgX" "m1" "p1" "hi" c3match 0 (by decide) rfl rfl rfl

/-- Claim C1 (amended): `createMatch` itself marks a match `active` (with
`startedAt` set) only when player2 and both judges are supplied; but the
matchmaker searches for a single judge (`findJudgeInQueue` with no
exclusion) and `startMatch` then sets `status = 'active'` and `startedAt`
unconditionally, so every match assembled by `findMatch` becomes active
with only `judge1Id` assigned and `judge2Id` still unassigned. -/
theorem claim_C1_active_quartet :
    (∀ (now : Int) (db : DB) (newId p1 : String) (p2 j1 j2 : Option String),
      (Storage.createMatch now db newId p1 p2 j1 j2).1.status = .active ↔
        (p2.isSome = true ∧ j1.isSome = true ∧ j2.isSome = true)) ∧
    (∀ (now : Int) (db : DB) (newMatchId userId : String) (userElo : Int),
      (MatchmakingService.findMatch now db newMatchId userId userElo).1.success = true →
      ∃ m ∈ ((MatchmakingService.findMatch now db newMatchId userId userElo).2).matchRows,
        m.id = newMatchId ∧ m.player1Id = userId ∧ m.status = .active ∧
        m.startedAt = some now ∧ m.judge2Id = none ∧
        (∃ j, Storage.findJudgeInQueue db none = some j ∧ m.judge1Id = some j.userId) ∧
        (∃ oppId, m.player2Id = some oppId ∧ oppId ≠ userId ∧
          (MatchmakingService.findMatch now db newMatchId userId userElo).1.opponentId
            = some oppId)) := by
  constructor
  · intro now db newId p1 p2 j1 j2
    unfold Storage.createMatch
    rcases p2 with _ | a <;> rcases j1 with _ | b <;> rcases j2 with _ | c <;> simp
  · intro now db newMatchId userId userElo hs
    unfold MatchmakingService.findMatch at hs ⊢
    rcases hq : Storage.getUserInQueue db userId with _ | qe
    · simp [hq] at hs
    · simp only [hq] at hs ⊢
      rcases ho : Storage.findMatchInQueue now db userElo
          (MatchmakingService.ELO_RANGE_BASE +
            Int.fdiv (now - qe.joinedAt) MatchmakingService.QUEUE_TIME_EXPANSION *
              MatchmakingService.ELO_RANGE_EXPANSION) with _ | opp
      · simp [ho] at hs
      · simp only [ho] at hs ⊢
        by_cases hself : (opp.userId == userId) = true
        · simp [hself] at hs
        · simp only [if_neg hself] at hs ⊢
          rcases hj : Storage.findJudgeInQueue db none with _ | j
          · simp [hj] at hs
          · simp only [hj] at hs ⊢
            refine ⟨_, List.mem_map_of_mem _ (List.mem_append_right _ (List.mem_singleton.mpr rfl)), ?_⟩
            have hne : opp.userId ≠ userId := by simpa using hself
            simp [Storage.createMatch, Storage.startMatch, Storage.modifyMatch,
              Storage.leaveQueue, hne, hj]

/-- Counterexample to C1 as stated: on the concrete queue `c1db` (players
`p1`, `p2` and one judge `j1`), `findMatch` succeeds and produces a match
that is `active` with `startedAt` set although `judge2Id` is unassigned —
no second distinct judge entry was ever required. -/
theorem claim_C1_counterexample :
    (MatchmakingService.findMatch 2000 c1db "m1" "p1" 1200).1.success = true ∧
    (Storage.getMatch (MatchmakingService.findMatch 2000 c1db "m1" "p1" 1200).2 "m1").map
        Match.status = some MatchStatus.active ∧
    (Storage.getMatch (MatchmakingService.findMatch 2000 c1db "m1" "p1" 1200).2 "m1").map
        Match.judge2Id = some none ∧
    (Storage.getMatch (MatchmakingService.findMatch 2000 c1db "m1" "p1" 1200).2 "m1").map
        Match.judge1Id = some (some "j1") ∧
    (Storage.getMatch (MatchmakingService.findMatch 2000 c1db "m1" "p1" 1200).2 "m1").map
        Match.startedAt = some (some 2000) := by
  decide

/-- Witness for C1: instantiating the amended statement on the concrete
queue `c1db`. -/
theorem claim_C1_active_quartet_witness :
    ∃ m ∈ ((MatchmakingService.findMatch 2000 c1db "m1" "p1" 1200).2).matchRows,
      m.id = "m1" ∧ m.player1Id = "p1" ∧ m.status = .active ∧
      m.startedAt = some 2000 ∧ m.judge2Id = none ∧
      (∃ j, Storage.findJudgeInQueue c1db none = some j ∧ m.judge1Id = some j.userId) ∧
      (∃ oppId, m.player2Id = some oppId ∧ oppId ≠ "p1" ∧
        (MatchmakingService.findMatch 2000 c1db "m1" "p1" 1200).1.opponentId
          = some oppId) :=
  claim_C1_active_quartet.2 2000 c1db "m1" "p1" 1200 (by decide)

end Textelo

namespace Textelo

theorem updateJudgeElos_judgeRatings (db : DB) (j1 j2 : String) (ag : Bool) :
    (GameEngine.updateJudgeElos db j1 j2 ag).judgeRatings = db.judgeRatings := by
  unfold GameEngine.updateJudgeElos
  rcases h1 : Storage.getUser db j1 with _ | u1 <;>
    rcases h2 : Storage.getUser db j2 with _ | u2 <;>
    cases ag <;>
    simp [h1, h2, Storage.updateJudgeStats, Storage.updateJudgeElo]

theorem getMessageJudgeRatings_updateJudgeElos (db : DB) (j1 j2 : String) (ag : Bool)
    (messageId : String) :
    Storage.getMessageJudgeRatings (GameEngine.updateJudgeElos db j1 j2 ag) messageId
      = Storage.getMessageJudgeRatings db messageId := by
  unfold Storage.getMessageJudgeRatings
  rw [updateJudgeElos_judgeRatings]

/-- Claim C4 (amended): `processJudgeRating` never fails — there is no
duplicate check and the schema has no uniqueness constraint on
`(message_id, judge_id)` — so every call (a repeat by the same judge
included) appends a new rating; the judge-ELO update fires exactly when the
post-insert count reaches two, whether or not the two raters are
distinct. -/
theorem claim_C4_duplicate_ratings (now : Int) (db : DB)
    (newRatingId messageId judgeId : String) (rating : MoveRating)
    (explanation : Option String) :
    (GameEngine.processJudgeRating now db newRatingId messageId judgeId rating
      explanation).1.success = true ∧
    Storage.getMessageJudgeRatings
        (GameEngine.processJudgeRating now db newRatingId messageId judgeId rating
          explanation).2 messageId
      = Storage.getMessageJudgeRatings db messageId ++
        [{ id := newRatingId, messageId := messageId, judgeId := judgeId,
           rating := rating, explanation := explanation.getD "", ratedAt := now }] ∧
    ((GameEngine.processJudgeRating now db newRatingId messageId judgeId rating
        explanation).1.eloUpdated = true ↔
      (Storage.getMessageJudgeRatings db messageId).length = 1) ∧
    ((Storage.getMessageJudgeRatings db messageId).length ≠ 1 →
      ((GameEngine.processJudgeRating now db newRatingId messageId judgeId rating
        explanation).2).users = db.users) := by
  set newR : JudgeRating := { id := newRatingId, messageId := messageId, judgeId := judgeId, rating := rating, explanation := explanation.getD "", ratedAt := now } with hnewR
  have happ : Storage.getMessageJudgeRatings
      (Storage.createJudgeRating now db newRatingId messageId judgeId rating
        (explanation.getD "")).2 messageId
      = Storage.getMessageJudgeRatings db messageId ++ [newR] := by
    unfold Storage.createJudgeRating Storage.getMessageJudgeRatings
    simp [List.filter_append, hnewR]
  unfold GameEngine.processJudgeRating
  simp only [happ]
  rcases hold : Storage.getMessageJudgeRatings db messageId with _ | ⟨a, _ | ⟨b, l⟩⟩
  · simp only [List.nil_append]
    refine ⟨by simp, ?_, by simp, fun _ => rfl⟩
    rw [happ, hold]
    simp
  · simp only [List.cons_append, List.nil_append]
    refine ⟨by simp, ?_, by simp, fun hlen => absurd rfl hlen⟩
    rw [getMessageJudgeRatings_updateJudgeElos, happ, hold]
    simp
  · obtain ⟨c, l2, hcons⟩ : ∃ c l2, l ++ [newR] = c :: l2 :=
      List.exists_cons_of_ne_nil (by simp)
    simp only [List.cons_append, hcons]
    refine ⟨by simp, ?_, by simp, fun _ => rfl⟩
    rw [happ, hold]
    simp [hcons]

theorem updateJudgeElos_getUser₁ (db : DB) (jA jB : String) (uA uB : User) (ag : Bool)
    (hA : Storage.getUser db jA = some uA) (hB : Storage.getUser db jB = some uB)
    (hne : jA ≠ jB) :
    Storage.getUser (GameEngine.updateJudgeElos db jA jB ag) jA =
      some { uA with
        judgeElo := if ag then max 800 (uA.judgeElo + 10) else max 800 (uA.judgeElo - 5)
        peakJudgeElo := max uA.peakJudgeElo
          (if ag then max 800 (uA.judgeElo + 10) else max 800 (uA.judgeElo - 5))
        totalJudgeMatches := uA.totalJudgeMatches + 1
        judgeAgreements := if ag then uA.judgeAgreements + 1 else uA.judgeAgreements
        judgeDisagreements := if ag then uA.judgeDisagreements
          else uA.judgeDisagreements + 1 } := by
  have eA : uA.id = jA := Storage.getUser_id hA
  have eB : uB.id = jB := Storage.getUser_id hB
  unfold GameEngine.updateJudgeElos
  simp only [hA, hB]
  cases ag
  · simp only [Bool.false_eq_true, if_false]
    rw [Storage.getUser_updateJudgeStats, Storage.getUser_updateJudgeStats,
      Storage.getUser_updateJudgeElo, Storage.getUser_updateJudgeElo, hA]
    simp [eA, eB, hne, Ne.symm hne, GameEngine.DISAGREEMENT_PENALTY]
  · simp only [if_true]
    rw [Storage.getUser_updateJudgeStats, Storage.getUser_updateJudgeStats,
      Storage.getUser_updateJudgeElo, Storage.getUser_updateJudgeElo, hA]
    simp [eA, eB, hne, Ne.symm hne, GameEngine.AGREEMENT_BONUS]

theorem updateJudgeElos_getUser₂ (db : DB) (jA jB : String) (uA uB : User) (ag : Bool)
    (hA : Storage.getUser db jA = some uA) (hB : Storage.getUser db jB = some uB)
    (hne : jA ≠ jB) :
    Storage.getUser (GameEngine.updateJudgeElos db jA jB ag) jB =
      some { uB with
        judgeElo := if ag then max 800 (uB.judgeElo + 10) else max 800 (uB.judgeElo - 5)
        peakJudgeElo := max uB.peakJudgeElo
          (if ag then max 800 (uB.judgeElo + 10) else max 800 (uB.judgeElo - 5))
        totalJudgeMatches := uB.totalJudgeMatches + 1
        judgeAgreements := if ag then uB.judgeAgreements + 1 else uB.judgeAgreements
        judgeDisagreements := if ag then uB.judgeDisagreements
          else uB.judgeDisagreements + 1 } := by
  have eA : uA.id = jA := Storage.getUser_id hA
  have eB : uB.id = jB := Storage.getUser_id hB
  unfold GameEngine.updateJudgeElos
  simp only [hA, hB]
  cases ag
  · simp only [Bool.false_eq_true, if_false]
    rw [Storage.getUser_updateJudgeStats, Storage.getUser_updateJudgeStats,
      Storage.getUser_updateJudgeElo, Storage.getUser_updateJudgeElo, hB]
    simp [eA, eB, hne, Ne.symm hne, GameEngine.DISAGREEMENT_PENALTY]
  · simp only [if_true]
    rw [Storage.getUser_updateJudgeStats, Storage.getUser_updateJudgeStats,
      Storage.getUser_updateJudgeElo, Storage.getUser_updateJudgeElo, hB]
    simp [eA, eB, hne, Ne.symm hne, GameEngine.AGREEMENT_BONUS]

theorem processJudgeRating_second (now : Int) (db : DB)
    (nid messageId jB : String) (tier : MoveRating) (expl : Option String)
    (r : JudgeRating) (hold : Storage.getMessageJudgeRatings db messageId = [r]) :
    GameEngine.processJudgeRating now db nid messageId jB tier expl
      = ({ success := true, eloUpdated := true },
         GameEngine.updateJudgeElos
           (Storage.createJudgeRating now db nid messageId jB tier (expl.getD "")).2
           r.judgeId jB (r.rating == tier)) := by
  set newR : JudgeRating := { id := nid, messageId := messageId, judgeId := jB, rating := tier, explanation := expl.getD "", ratedAt := now } with hnewR
  have happ : Storage.getMessageJudgeRatings
      (Storage.createJudgeRating now db nid messageId jB tier (expl.getD "")).2 messageId
      = Storage.getMessageJudgeRatings db messageId ++ [newR] := by
    unfold Storage.createJudgeRating Storage.getMessageJudgeRatings
    simp [List.filter_append, hnewR]
  unfold GameEngine.processJudgeRating
  simp only [happ, hold, List.cons_append, List.nil_append]

theorem updateJudgeElos_judgeElo_step (db : DB) (j1 j2 : String) (ag : Bool)
    (u : String) (uu : User) (h : Storage.getUser db u = some uu) :
    ∃ uu', Storage.getUser (GameEngine.updateJudgeElos db j1 j2 ag) u = some uu' ∧
      (uu'.judgeElo = uu.judgeElo ∨ 800 ≤ uu'.judgeElo) := by
  unfold GameEngine.updateJudgeElos
  rcases h1 : Storage.getUser db j1 with _ | u1
  · exact ⟨uu, h, Or.inl rfl⟩
  rcases h2 : Storage.getUser db j2 with _ | u2
  · exact ⟨uu, h, Or.inl rfl⟩
  cases ag <;>
    [skip; skip] <;>
    · simp only [Bool.false_eq_true, if_false, if_true]
      rw [Storage.getUser_updateJudgeStats, Storage.getUser_updateJudgeStats,
        Storage.getUser_updateJudgeElo, Storage.getUser_updateJudgeElo, h]
      by_cases hb1 : uu.id = j1 <;> by_cases hb2 : uu.id = j2 <;>
        rcases eq_or_ne j1 j2 with hb3 | hb3 <;>
        first
        | (subst hb3; simp_all [le_sup_left])
        | simp_all [Ne.symm hb3, le_sup_left]

theorem applyJudgeEvents_floor (events : List (String × String × Bool)) :
    ∀ (db : DB) (u : String) (uu : User), Storage.getUser db u = some uu →
      800 ≤ uu.judgeElo →
      ∃ uu', Storage.getUser (applyJudgeEvents db events) u = some uu' ∧
        800 ≤ uu'.judgeElo := by
  induction events with
  | nil => exact fun db u uu h hle => ⟨uu, h, hle⟩
  | cons e evs ih =>
    intro db u uu h hle
    obtain ⟨uu1, h1, hor⟩ := updateJudgeElos_judgeElo_step db e.1 e.2.1 e.2.2 u uu h
    have hle1 : 800 ≤ uu1.judgeElo := by
      rcases hor with heq | hge
      · rw [heq]
        exact hle
      · exact hge
    exact ih (GameEngine.updateJudgeElos db e.1 e.2.1 e.2.2) u uu1 h1 hle1

end Textelo

namespace Textelo

/-- Claim C7: when the second rating for a message arrives from a distinct
judge, both raters' `judgeElo` moves to `max(800, judgeElo + 10)` on tier
agreement and `max(800, judgeElo - 5)` otherwise, each rater's
`totalJudgeMatches` rises by 1 and exactly one of agreements/disagreements
rises; the update never fires when two ratings already exist (no 3rd-rating
fire); and a `judgeElo` at or above 800 stays at or above 800 across any
sequence of judge-ELO updates. -/
theorem claim_C7_judge_consensus :
    (∀ (now : Int) (db : DB) (nid messageId jB : String) (tier : MoveRating)
      (expl : Option String) (r : JudgeRating) (uA uB : User),
      Storage.getMessageJudgeRatings db messageId = [r] →
      Storage.getUser db r.judgeId = some uA →
      Storage.getUser db jB = some uB →
      r.judgeId ≠ jB →
      (GameEngine.processJudgeRating now db nid messageId jB tier expl).1.eloUpdated
        = true ∧
      ∃ uA' uB',
        Storage.getUser
          (GameEngine.processJudgeRating now db nid messageId jB tier expl).2 r.judgeId
          = some uA' ∧
        Storage.getUser
          (GameEngine.processJudgeRating now db nid messageId jB tier expl).2 jB
          = some uB' ∧
        uA'.judgeElo = (if r.rating = tier then max 800 (uA.judgeElo + 10)
          else max 800 (uA.judgeElo - 5)) ∧
        uB'.judgeElo = (if r.rating = tier then max 800 (uB.judgeElo + 10)
          else max 800 (uB.judgeElo - 5)) ∧
        uA'.totalJudgeMatches = uA.totalJudgeMatches + 1 ∧
        uB'.totalJudgeMatches = uB.totalJudgeMatches + 1 ∧
        uA'.judgeAgreements = (if r.rating = tier then uA.judgeAgreements + 1
          else uA.judgeAgreements) ∧
        uA'.judgeDisagreements = (if r.rating = tier then uA.judgeDisagreements
          else uA.judgeDisagreements + 1) ∧
        uB'.judgeAgreements = (if r.rating = tier then uB.judgeAgreements + 1
          else uB.judgeAgreements) ∧
        uB'.judgeDisagreements = (if r.rating = tier then uB.judgeDisagreements
          else uB.judgeDisagreements + 1)) ∧
    (∀ (now : Int) (db : DB) (nid messageId jX : String) (tier : MoveRating)
      (expl : Option String) (x y : JudgeRating),
      Storage.getMessageJudgeRatings db messageId = [x, y] →
      (GameEngine.processJudgeRating now db nid messageId jX tier expl).1.eloUpdated
        = false ∧
      ((GameEngine.processJudgeRating now db nid messageId jX tier expl).2).users
        = db.users) ∧
    (∀ (events : List (String × String × Bool)) (db : DB) (u : String) (uu : User),
      Storage.getUser db u = some uu → 800 ≤ uu.judgeElo →
      ∃ uu', Storage.getUser (applyJudgeEvents db events) u = some uu' ∧
        800 ≤ uu'.judgeElo) := by
  refine ⟨?_, ?_, applyJudgeEvents_floor⟩
  · intro now db nid messageId jB tier expl r uA uB hold hA hB hne
    rw [processJudgeRating_second now db nid messageId jB tier expl r hold]
    refine ⟨rfl, ?_⟩
    have hA2 : Storage.getUser
        (Storage.createJudgeRating now db nid messageId jB tier (expl.getD "")).2
        r.judgeId = some uA := hA
    have hB2 : Storage.getUser
        (Storage.createJudgeRating now db nid messageId jB tier (expl.getD "")).2
        jB = some uB := hB
    refine ⟨_, _,
      updateJudgeElos_getUser₁ _ r.judgeId jB uA uB (r.rating == tier) hA2 hB2 hne,
      updateJudgeElos_getUser₂ _ r.judgeId jB uA uB (r.rating == tier) hA2 hB2 hne,
      ?_, ?_, rfl, rfl, ?_, ?_, ?_, ?_⟩ <;>
      by_cases ht : r.rating = tier <;> simp [ht]
  · intro now db nid messageId jX tier expl x y hold
    set newR : JudgeRating := { id := nid, messageId := messageId, judgeId := jX, rating := tier, explanation := expl.getD "", ratedAt := now } with hnewR
    have happ : Storage.getMessageJudgeRatings
        (Storage.createJudgeRating now db nid messageId jX tier (expl.getD "")).2 messageId
        = Storage.getMessageJudgeRatings db messageId ++ [newR] := by
      unfold Storage.createJudgeRating Storage.getMessageJudgeRatings
      simp [List.filter_append, hnewR]
    unfold GameEngine.processJudgeRating
    simp only [happ, hold, List.cons_append, List.nil_append]
    exact ⟨by trivial, by trivial⟩

/-- Witness for C7: on the concrete stores, a distinct second judge agreeing
raises both judge ELOs to 1210; a rating on an already-twice-rated message
does not fire; and a disagreement event keeps the 800 floor. -/
theorem claim_C7_judge_consensus_witness :
    ((GameEngine.processJudgeRating 30 c7db "r2" "msg1" "jB" .good none).1.eloUpdated
      = true) ∧
    ((GameEngine.processJudgeRating 40 c7db2 "r3" "msg1" "jC" .good none).1.eloUpdated
      = false) ∧
    (∃ uu', Storage.getUser
        (applyJudgeEvents c7db [("jA", "jB", false)]) "jA" = some uu' ∧
      800 ≤ uu'.judgeElo) := by
  refine ⟨?_, ?_, ?_⟩
  · exact (claim_C7_judge_consensus.1 30 c7db "r2" "msg1" "jB" .good none
      ⟨"r1", "msg1", "jA", .good, "", 20⟩ { id := "jA" } { id := "jB" }
      (by decide) (by decide) (by decide) (by decide)).1
  · exact (claim_C7_judge_consensus.2.1 40 c7db2 "r3" "msg1" "jC" .good none
      ⟨"r1", "msg1", "jA", .good, "", 20⟩ ⟨"r2", "msg1", "jB", .blunder, "", 25⟩
      (by decide)).1
  · exact claim_C7_judge_consensus.2.2 [("jA", "jB", false)] c7db "jA" { id := "jA" }
      (by decide) (by decide)

end Textelo

namespace Textelo

/-- Counterexample to C4 as stated: judge `j` already rated `msg1` in `c4db`,
yet a second rating by the same judge succeeds (no DuplicateRating error),
leaves two ratings for the `(msg1, j)` pair, and fires the judge-ELO update
with `j` on both sides (`totalJudgeMatches` jumps by 2). -/
theorem claim_C4_duplicate_ratings_counterexample :
    (GameEngine.processJudgeRating 30 c4db "r2" "msg1" "j" .good none).1
      = { success := true, eloUpdated := true } ∧
    (Storage.getMessageJudgeRatings
        (GameEngine.processJudgeRating 30 c4db "r2" "msg1" "j" .good none).2 "msg1").map
        JudgeRating.judgeId = ["j", "j"] ∧
    (Storage.getUser (GameEngine.processJudgeRating 30 c4db "r2" "msg1" "j" .good none).2
        "j").map User.totalJudgeMatches = some 2 ∧
    (Storage.getUser (GameEngine.processJudgeRating 30 c4db "r2" "msg1" "j" .good none).2
        "j").map User.judgeElo = some 1210 := by
  decide

/-- Witness for C4: a first rating on a fresh message is accepted, appended,
and fires no ELO update. -/
theorem claim_C4_duplicate_ratings_witness :
    (GameEngine.processJudgeRating 30 c3db "r1" "msgZ" "jX" .good none).1.success
      = true ∧
    Storage.getMessageJudgeRatings
        (GameEngine.processJudgeRating 30 c3db "r1" "msgZ" "jX" .good none).2 "msgZ"
      = Storage.getMessageJudgeRatings c3db "msgZ" ++
        [{ id := "r1", messageId := "msgZ", judgeId := "jX",
           rating := .good, explanation := (none : Option String).getD "", ratedAt := 30 }] ∧
    ((GameEngine.processJudgeRating 30 c3db "r1" "msgZ" "jX" .good none).1.eloUpdated
        = true ↔
      (Storage.getMessageJudgeRatings c3db "msgZ").length = 1) ∧
    ((Storage.getMessageJudgeRatings c3db "msgZ").length ≠ 1 →
      ((GameEngine.processJudgeRating 30 c3db "r1" "msgZ" "jX" .good none).2).users
        = c3db.users) :=
  claim_C4_duplicate_ratings 30 c3db "r1" "msgZ" "jX" .good none

end Textelo

namespace Textelo

/-- The three match-row fields that the turn-alternation argument tracks. -/
def TurnFields (f : Match → Match) : Prop :=
  ∀ m, (f m).player1Id = m.player1Id ∧ (f m).player2Id = m.player2Id ∧
    (f m).currentTurn = m.currentTurn

theorem turnFields_cond (x : String) (g : Match → Match) (hg : TurnFields g) :
    TurnFields (fun m => if m.id == x then g m else m) := by
  intro m
  by_cases h : (m.id == x) = true <;> simp [h, hg m]

theorem turnFields_id : TurnFields (fun m => m) := fun _ => ⟨rfl, rfl, rfl⟩

theorem turnFields_comp (f g : Match → Match) (hf : TurnFields f) (hg : TurnFields g) :
    TurnFields (fun m => g (f m)) := by
  intro m
  obtain ⟨a1, a2, a3⟩ := hf m
  obtain ⟨b1, b2, b3⟩ := hg (f m)
  exact ⟨b1.trans a1, b2.trans a2, b3.trans a3⟩

theorem endMatch_getMatch_map (now : Int) (db : DB) (mid' : String) (w : Option String)
    (y : String) :
    ∃ f, TurnFields f ∧
      Storage.getMatch ((GameEngine.endMatch now db mid' w).2) y
        = (Storage.getMatch db y).map f := by
  unfold GameEngine.endMatch
  rcases hm : Storage.getMatch db mid' with _ | m0
  · exact ⟨fun m => m, turnFields_id, by simp⟩
  simp only
  by_cases hact : m0.status = .active
  · rw [if_neg (by simp [hact])]
    rcases w with _ | fid
    · simp only
      refine ⟨_, ?_,
        by rw [updateEloRatings_getMatch, Storage.getMatch_setMatchWinner]⟩
      intro m
      by_cases h : (m.id == mid') = true <;> simp [h]
    · by_cases hw : (fid == m0.player1Id) = true
      · simp only [hw, if_true]
        rcases hp2 : m0.player2Id with _ | p2
        · simp only
          refine ⟨_, ?_, by rw [Storage.getMatch_updateMatchStatus]⟩
          intro m
          by_cases h : (m.id == mid') = true <;> simp [h]
        · simp only
          refine ⟨_, ?_,
            by rw [Storage.getMatch_updateMatchStatus, updateEloRatings_getMatch,
              Storage.getMatch_setMatchWinner, Option.map_map]⟩
          intro m
          by_cases h : (m.id == mid') = true <;> simp [Function.comp, h]
      · simp only [hw, Bool.false_eq_true, if_false]
        refine ⟨_, ?_,
          by rw [Storage.getMatch_updateMatchStatus, updateEloRatings_getMatch,
            Storage.getMatch_setMatchWinner, Option.map_map]⟩
        intro m
        by_cases h : (m.id == mid') = true <;> simp [Function.comp, h]
  · rw [if_pos (by simp [hact])]
    exact ⟨fun m => m, turnFields_id, by simp⟩

theorem endMatch_messages (now : Int) (db : DB) (mid' : String) (w : Option String) :
    ((GameEngine.endMatch now db mid' w).2).messages = db.messages := by
  unfold GameEngine.endMatch
  rcases hm : Storage.getMatch db mid' with _ | m0
  · rfl
  simp only
  by_cases hact : m0.status = .active
  · rw [if_neg (by simp [hact])]
    rcases w with _ | fid
    · simp [updateEloRatings_messages, Storage.setMatchWinner]
    · by_cases hw : (fid == m0.player1Id) = true
      · simp only [hw, if_true]
        rcases hp2 : m0.player2Id with _ | p2 <;>
          simp [updateEloRatings_messages, Storage.setMatchWinner,
            Storage.updateMatchStatus]
      · simp only [hw, Bool.false_eq_true, if_false]
        simp [updateEloRatings_messages, Storage.setMatchWinner,
          Storage.updateMatchStatus]
  · rw [if_pos (by simp [hact])]

theorem getMatchMessages_congr {dbA dbB : DB} (h : dbA.messages = dbB.messages)
    (mid : String) :
    Storage.getMatchMessages dbA mid = Storage.getMatchMessages dbB mid := by
  unfold Storage.getMatchMessages
  rw [h]

theorem MatchTurnInv_transfer {db db' : DB} {mid : String}
    (hmsg : db'.messages = db.messages)
    (hmap : ∃ f, TurnFields f ∧
      Storage.getMatch db' mid = (Storage.getMatch db mid).map f)
    (hinv : MatchTurnInv db mid) : MatchTurnInv db' mid := by
  obtain ⟨hchain, hrows⟩ := hinv
  obtain ⟨f, hf, hgm⟩ := hmap
  have hmm : Storage.getMatchMessages db' mid = Storage.getMatchMessages db mid :=
    getMatchMessages_congr hmsg mid
  refine ⟨by rw [hmm]; exact hchain, ?_⟩
  intro m' hm'
  rw [hgm] at hm'
  rcases hgmdb : Storage.getMatch db mid with _ | m
  · simp [hgmdb] at hm'
  · rw [hgmdb] at hm'
    simp only [Option.map_some', Option.some.injEq] at hm'
    obtain ⟨p2, hp2, hne, hturn, hlast⟩ := hrows m hgmdb
    obtain ⟨f1, f2, f3⟩ := hf m
    subst hm'
    refine ⟨p2, by rw [f2, hp2], by rw [f1]; exact hne, ?_, ?_⟩
    · rw [f3, f1]
      exact hturn
    · rw [hmm, f3]
      exact hlast

theorem getMatch_createMessage (now : Int) (db : DB) (nid mid' uid c : String)
    (y : String) :
    Storage.getMatch ((Storage.createMessage now db nid mid' uid c).2) y
      = Storage.getMatch db y := rfl

theorem getMatchMessages_createMessage_eq (now : Int) (db : DB)
    (nid mid uid c : String) :
    Storage.getMatchMessages ((Storage.createMessage now db nid mid uid c).2) mid
      = Storage.getMatchMessages db mid ++ [⟨nid, mid, uid, c, now⟩] := by
  unfold Storage.createMessage Storage.getMatchMessages
  simp [List.filter_append]

theorem getMatchMessages_createMessage_ne (now : Int) (db : DB)
    (nid mid' uid c mid : String) (h : mid' ≠ mid) :
    Storage.getMatchMessages ((Storage.createMessage now db nid mid' uid c).2) mid
      = Storage.getMatchMessages db mid := by
  unfold Storage.createMessage Storage.getMatchMessages
  simp [List.filter_append, h]

theorem getMatchMessages_switchTurn (db : DB) (x n mid : String) :
    Storage.getMatchMessages (Storage.switchTurn db x n) mid
      = Storage.getMatchMessages db mid := rfl

theorem getMatch_switchTurn_ne (db : DB) (mid' next mid : String) (h : mid' ≠ mid) :
    Storage.getMatch (Storage.switchTurn db mid' next) mid = Storage.getMatch db mid := by
  rw [Storage.getMatch_switchTurn]
  rcases hg : Storage.getMatch db mid with _ | m
  · rfl
  · have hid : m.id = mid := Storage.getMatch_id hg
    simp [hid, Ne.symm h]

theorem MatchTurnInv_congr {db db' : DB} {mid : String}
    (hmsgs : Storage.getMatchMessages db' mid = Storage.getMatchMessages db mid)
    (hgm : Storage.getMatch db' mid = Storage.getMatch db mid)
    (hinv : MatchTurnInv db mid) : MatchTurnInv db' mid := by
  obtain ⟨hchain, hrows⟩ := hinv
  refine ⟨by rw [hmsgs]; exact hchain, ?_⟩
  intro m' hm'
  rw [hgm] at hm'
  obtain ⟨p2, hp2, hne, hturn, hlast⟩ := hrows m' hm'
  exact ⟨p2, hp2, hne, hturn, by rw [hmsgs]; exact hlast⟩

theorem sendMessage_pres_MatchTurnInv (now : Int) (db : DB)
    (nid mid' uid c : String) (mid : String) (hinv : MatchTurnInv db mid) :
    MatchTurnInv ((GameEngine.sendMessage now db nid mid' uid c).2) mid := by
  unfold GameEngine.sendMessage
  rcases hm : Storage.getMatch db mid' with _ | m0
  · exact hinv
  simp only
  by_cases hact : m0.status = .active
  case neg =>
    rw [if_pos (by simp [hact])]
    exact hinv
  rw [if_neg (by simp [hact])]
  by_cases hturn : m0.currentTurn = some uid
  case neg =>
    rw [if_pos (by simp [hturn])]
    exact hinv
  rw [if_neg (by simp [hturn])]
  by_cases hexp : GameEngine.isMatchExpired now m0 = true
  · rw [if_pos hexp]
    exact MatchTurnInv_transfer (endMatch_messages now db mid' none)
      (endMatch_getMatch_map now db mid' none mid) hinv
  · rw [if_neg hexp]
    by_cases hmid : mid' = mid
    · subst hmid
      obtain ⟨hchain, hrows⟩ := hinv
      obtain ⟨p2, hp2, hnep, hturnmem, hlast⟩ := hrows m0 hm
      have hid0 : m0.id = mid' := Storage.getMatch_id hm
      have hchain' : AlternatingSenders
          (Storage.getMatchMessages
            ((Storage.createMessage now db nid mid' uid c.trim).2) mid') := by
        rw [getMatchMessages_createMessage_eq]
        refine List.chain'_append.mpr ⟨hchain, List.chain'_singleton _, ?_⟩
        intro x hx y hy
        simp only [List.head?_cons, Option.mem_def, Option.some.injEq] at hy
        subst hy
        intro hxy
        exact hlast x hx (by rw [hxy, hturn])
      have hlast' : (Storage.getMatchMessages
          ((Storage.createMessage now db nid mid' uid c.trim).2) mid').getLast?
          = some ⟨nid, mid', uid, c.trim, now⟩ := by
        rw [getMatchMessages_createMessage_eq]
        exact List.getLast?_concat _
      by_cases hp1 : (m0.player1Id == uid) = true
      · -- sender is player1; turn flips to player2
        simp only [hp1, if_true, hp2]
        have huid : m0.player1Id = uid := by simpa using hp1
        refine ⟨?_, ?_⟩
        · rw [getMatchMessages_switchTurn]
          exact hchain'
        · intro m' hm'
          rw [Storage.getMatch_switchTurn, getMatch_createMessage, hm] at hm'
          simp only [Option.map_some', Option.some.injEq, hid0, beq_self_eq_true,
            if_true] at hm'
          subst hm'
          refine ⟨p2, hp2, hnep, Or.inr rfl, ?_⟩
          intro lastMsg hl
          rw [getMatchMessages_switchTurn, hlast'] at hl
          simp only [Option.mem_def, Option.some.injEq] at hl
          subst hl
          rw [← huid]
          exact fun h => hnep (Option.some_injective _ h)
      · -- sender is player2; turn flips to player1
        simp only [hp1, Bool.false_eq_true, if_false]
        have huid : m0.player1Id ≠ uid := by simpa using hp1
        refine ⟨?_, ?_⟩
        · rw [getMatchMessages_switchTurn]
          exact hchain'
        · intro m' hm'
          rw [Storage.getMatch_switchTurn, getMatch_createMessage, hm] at hm'
          simp only [Option.map_some', Option.some.injEq, hid0, beq_self_eq_true,
            if_true] at hm'
          subst hm'
          refine ⟨p2, hp2, hnep, Or.inl rfl, ?_⟩
          intro lastMsg hl
          rw [getMatchMessages_switchTurn, hlast'] at hl
          simp only [Option.mem_def, Option.some.injEq] at hl
          subst hl
          exact fun h => huid (Option.some_injective _ h).symm
    · -- a send in a different match leaves this match untouched
      by_cases hp1 : (m0.player1Id == uid) = true
      · simp only [hp1, if_true]
        rcases hp2v : m0.player2Id with _ | p2
        · exact MatchTurnInv_congr
            (getMatchMessages_createMessage_ne now db nid mid' uid c.trim mid hmid)
            (getMatch_createMessage now db nid mid' uid c.trim mid) hinv
        · exact MatchTurnInv_congr
            (by rw [getMatchMessages_switchTurn,
              getMatchMessages_createMessage_ne now db nid mid' uid c.trim mid hmid])
            (by rw [getMatch_switchTurn_ne _ _ _ _ hmid, getMatch_createMessage]) hinv
      · simp only [hp1, Bool.false_eq_true, if_false]
        exact MatchTurnInv_congr
          (by rw [getMatchMessages_switchTurn,
            getMatchMessages_createMessage_ne now db nid mid' uid c.trim mid hmid])
          (by rw [getMatch_switchTurn_ne _ _ _ _ hmid, getMatch_createMessage]) hinv

theorem runSends_pres (evs : List SendEv) :
    ∀ (db : DB) (mid : String), MatchTurnInv db mid →
      MatchTurnInv (runSends db evs) mid := by
  induction evs with
  | nil => exact fun db mid h => h
  | cons e evs ih =>
    intro db mid h
    simp only [runSends, List.foldl_cons]
    exact ih _ mid (sendMessage_pres_MatchTurnInv e.now db e.msgId e.matchId e.userId
      e.content mid h)

/-- Claim C9: an accepted message comes only from the player on turn, the
turn flips to the other player exactly once per accepted message, and
consequently along any sequence of `sendMessage` requests from a state
satisfying the turn invariant, the stored message sequence never has the
same sender twice in a row. -/
theorem claim_C9_turn_alternation :
    (∀ (now : Int) (db : DB) (nid mid uid c : String),
      (GameEngine.sendMessage now db nid mid uid c).1.success = true →
      ∃ m, Storage.getMatch db mid = some m ∧ m.currentTurn = some uid) ∧
    (∀ (now : Int) (db : DB) (nid mid uid c : String) (m m' : Match) (p2 : String),
      (GameEngine.sendMessage now db nid mid uid c).1.success = true →
      Storage.getMatch db mid = some m → m.player2Id = some p2 →
      Storage.getMatch ((GameEngine.sendMessage now db nid mid uid c).2) mid
        = some m' →
      m'.currentTurn = (if m.player1Id = uid then some p2 else some m.player1Id)) ∧
    (∀ (db : DB) (mid : String) (evs : List SendEv), MatchTurnInv db mid →
      AlternatingSenders (Storage.getMatchMessages (runSends db evs) mid)) := by
  refine ⟨?_, ?_, fun db mid evs h => (runSends_pres evs db mid h).1⟩
  · intro now db nid mid uid c hs
    unfold GameEngine.sendMessage at hs
    rcases hm : Storage.getMatch db mid with _ | m0
    · rw [hm] at hs
      simp at hs
    simp only [hm] at hs
    by_cases hact : m0.status = .active
    case neg =>
      rw [if_pos (by simp [hact])] at hs
      simp at hs
    rw [if_neg (by simp [hact])] at hs
    by_cases hturn : m0.currentTurn = some uid
    case neg =>
      rw [if_pos (by simp [hturn])] at hs
      simp at hs
    exact ⟨m0, rfl, hturn⟩
  · intro now db nid mid uid c m m' p2 hs hm hp2 hm'
    unfold GameEngine.sendMessage at hs hm'
    simp only [hm] at hs hm'
    by_cases hact : m.status = .active
    case neg =>
      rw [if_pos (by simp [hact])] at hs
      simp at hs
    rw [if_neg (by simp [hact])] at hs hm'
    by_cases hturn : m.currentTurn = some uid
    case neg =>
      rw [if_pos (by simp [hturn])] at hs
      simp at hs
    rw [if_neg (by simp [hturn])] at hs hm'
    by_cases hexp : GameEngine.isMatchExpired now m = true
    · rw [if_pos hexp] at hs
      simp at hs
    rw [if_neg hexp] at hm'
    have hid : m.id = mid := Storage.getMatch_id hm
    by_cases hp1 : (m.player1Id == uid) = true
    · simp only [hp1, if_true, hp2] at hm'
      rw [Storage.getMatch_switchTurn, getMatch_createMessage, hm] at hm'
      simp only [Option.map_some', Option.some.injEq, hid, beq_self_eq_true,
        if_true] at hm'
      subst hm'
      have huid : m.player1Id = uid := by simpa using hp1
      simp [huid]
    · simp only [hp1, Bool.false_eq_true, if_false] at hm'
      rw [Storage.getMatch_switchTurn, getMatch_createMessage, hm] at hm'
      simp only [Option.map_some', Option.some.injEq, hid, beq_self_eq_true,
        if_true] at hm'
      subst hm'
      have huid : m.player1Id ≠ uid := by simpa using hp1
      simp [huid]

theorem c3db_MatchTurnInv : MatchTurnInv c3db "m1" := by
  constructor
  · have h : Storage.getMatchMessages c3db "m1" = [] := rfl
    rw [h]
    exact List.chain'_nil
  · intro m hm
    have heq : Storage.getMatch c3db "m1" = some c3match := by decide
    rw [heq] at hm
    have hmm : c3match = m := by
      injection hm
    subst hmm
    refine ⟨"p2", rfl, by decide, Or.inl rfl, ?_⟩
    intro lastMsg hl
    have h : Storage.getMatchMessages c3db "m1" = [] := rfl
    rw [h] at hl
    simp at hl

/-- Witness for C9: on the concrete match `c3db`, the first queued send is
accepted only for `p1` (the player on turn), and replaying the two-message
exchange keeps the stored message sequence strictly alternating. -/
theorem claim_C9_turn_alternation_witness :
    (∃ m, Storage.getMatch c3db "m1" = some m ∧ m.currentTurn = some "p1") ∧
    AlternatingSenders (Storage.getMatchMessages (runSends c3db c9events) "m1") := by
  constructor
  · exact claim_C9_turn_alternation.1 100 c3db "msgA" "m1" "p1" "hello" (by decide)
  · exact claim_C9_turn_alternation.2.2 c3db "m1" c9events c3db_MatchTurnInv

end Textelo
